import Mathlib

/-!
NumptyPhysics: the `Game` layer (src/Game.cpp) over its `Scene`

A shallow embedding of the class `Game` of `src/Game.cpp`, of the tool dialog
of `src/Dialogs.cpp` and of `Vec2` and `Rect` of `src/Common.h`.  `Game` owns
a `Scene` (`m_scene`) and drives it from input events and ticks.  The classes
`Scene`, `Stroke`, `JetStream`, `Levels`, `Os`, `Config` and the bodies of the
widget toolkit are defined outside of these files, so every call that `Game`
makes into them goes through an interface record `Env`: the scene is an
abstract state `σ`, everything else outside of `Game` (level list, file
system, clock, widget tree) is an abstract state `ω`.

Every call `Game` makes on the scene or on the toolkit is also appended to a
call log (`Game.trace`), so that "calls X exactly once", "does not call Y"
and "calls X before Y" are statements about that log.  Queries without
effect (`isCompleted`, `strokes`, `strokeAtPoint`, `getLog()->size()`,
`numLevels`, `findLevel`, `ticks`, ...) are not logged.

Not modelled: widget geometry (the `Rect` arguments of `add`, the targets of
`animateTo`), log output (`LOG_DEBUG`, `LOG_INFO`) and `Game::draw`.
C++ `int` is `Int`: signed overflow is undefined in C++, and no statement
below needs a value outside of the `int` range; where a conversion to an
unsigned type or wrap-around matters it is written out (`toSizeT`, `wrap32`).
-/

namespace Numpty

/-! ## Common.h -/

/-- The struct `Vec2` of Common.h: a pair of `int`. -/
structure Vec2 where
  x : Int
  y : Int
  deriving DecidableEq, Repr

/-- The default constructor `Vec2()`: x(0), y(0). -/
def Vec2.zero : Vec2 := ⟨0, 0⟩

/-- Method `Vec2::operator+`. -/
def Vec2.add (a b : Vec2) : Vec2 := ⟨a.x + b.x, a.y + b.y⟩

/-- Method `Vec2::operator-` (binary). -/
def Vec2.sub (a b : Vec2) : Vec2 := ⟨a.x - b.x, a.y - b.y⟩

/-- The template `Min` of Common.h at `int`: `a < b ? a : b`. -/
def Min (a b : Int) : Int := if a < b then a else b

/-- The template `Max` of Common.h at `int`: `a >= b ? a : b`. -/
def Max (a b : Int) : Int := if a ≥ b then a else b

/-- The overload `Min(const Vec2&, const Vec2&)`. -/
def Vec2.Min (a b : Vec2) : Vec2 := ⟨Numpty.Min a.x b.x, Numpty.Min a.y b.y⟩

/-- The overload `Max(const Vec2&, const Vec2&)`. -/
def Vec2.Max (a b : Vec2) : Vec2 := ⟨Numpty.Max a.x b.x, Numpty.Max a.y b.y⟩

/-- The struct `Rect` of Common.h: top-left and bottom-right corner. -/
structure Rect where
  tl : Vec2
  br : Vec2
  deriving DecidableEq, Repr

/-- Method `Rect::expand(const Vec2& v)`: `tl=Min(tl,v); br=Max(br,v);`. -/
def Rect.expand (r : Rect) (v : Vec2) : Rect := ⟨Vec2.Min r.tl v, Vec2.Max r.br v⟩

/-- Method `Rect::contains(const Vec2& p)`. -/
def Rect.contains (r : Rect) (p : Vec2) : Bool :=
  decide (p.x ≥ r.tl.x) && decide (p.x ≤ r.br.x) && decide (p.y ≥ r.tl.y) && decide (p.y ≤ r.br.y)

/-- Method `Rect::contains(const Rect& p)`. -/
def Rect.containsRect (r p : Rect) : Bool := r.contains p.tl && r.contains p.br

/-- Method `Rect::intersects(const Rect& r)`. -/
def Rect.intersects (a r : Rect) : Bool :=
  decide (r.tl.x ≤ a.br.x) && decide (r.tl.y ≤ a.br.y) && decide (r.br.x ≥ a.tl.x) &&
    decide (r.br.y ≥ a.tl.y)

/-- A rect with `tl <= br` in both coordinates. -/
def Rect.ordered (r : Rect) : Bool := decide (r.tl.x ≤ r.br.x) && decide (r.tl.y ≤ r.br.y)

/-- The bounding box of the points `p :: ps`: `expand` folded over `ps` from the
degenerate rect at `p`. -/
def bboxOf (p : Vec2) (ps : List Vec2) : Rect := ps.foldl Rect.expand ⟨p, p⟩

/-- What the fold of `expand` maintains. -/
def Tight (r : Rect) (l : List Vec2) : Prop :=
  (∀ q ∈ l, r.contains q = true) ∧
  (∃ q ∈ l, q.x = r.tl.x) ∧ (∃ q ∈ l, q.y = r.tl.y) ∧
  (∃ q ∈ l, q.x = r.br.x) ∧ (∃ q ∈ l, q.y = r.br.y)

/-- Method `Rect::clear()`, as a value: the rect `Rect(true)`, all four
coordinates 0. -/
def Rect.clear : Rect := ⟨⟨0, 0⟩, ⟨0, 0⟩⟩

/-- Method `Rect::isEmpty()`: `tl.x==0 && br.x==0`. -/
def Rect.isEmpty (r : Rect) : Bool := decide (r.tl.x = 0) && decide (r.br.x = 0)

/-- Method `Rect::expand(const Rect& r)`. -/
def Rect.expandRect (a r : Rect) : Rect :=
  if a.isEmpty then r
  else if !r.isEmpty then (a.expand r.tl).expand r.br
  else a

/-! ## Handles and enumerations -/

/-- A `Stroke*` that is not NULL; `Option Stroke` is a `Stroke*`. -/
abbrev Stroke := Nat

/-- A `JetStream*` that is not NULL. -/
abbrev JetStream := Nat

/-- A `Widget*` that is not NULL. -/
abbrev Widget := Nat

/-- Modelled from the spec: `Path` (Path.h is not at hand) is an "ordered
sequence of 2D integer points" with an append operation. -/
abbrev Path := List Vec2

/-- Modelled from the spec: the append `Path::operator&` used in
`Path() & mousePoint(ev)`. -/
def Path.and (p : Path) (v : Vec2) : Path := p ++ [v]

/-- The enum `ClickMode`, as used by `clickModeName` and `Game::clickMode`. -/
inductive ClickMode where
  | CLICK_MODE_DRAW_STROKE
  | CLICK_MODE_MOVE
  | CLICK_MODE_ERASE
  | CLICK_MODE_DRAW_JETSTREAM
  deriving DecidableEq, Repr

/-- The event maps `Game::clickMode` switches between. -/
inductive EventMapType where
  | GAME_MAP
  | GAME_MOVE_MAP
  | GAME_ERASE_MAP
  | GAME_JETSTREAM_MAP
  deriving DecidableEq, Repr

/-- The event codes `Game::onEvent` switches on; `OTHER` is any code that
falls to the `default:` label. -/
inductive Code where
  | MENU | PAUSE | UNDO | SAVE | CANCEL | OPTION | POPUP_CLOSING | SELECT
  | EDIT | DONE | RESET | NEXT | PREVIOUS | REPLAY | PLAY
  | DRAWBEGIN | DRAWMORE | DRAWEND
  | MOVEBEGIN | MOVEMORE | MOVEEND
  | JETSTREAMBEGIN | JETSTREAMMORE | JETSTREAMEND
  | DELETE
  | OTHER (n : Nat)
  deriving DecidableEq, Repr

/-- An `Event`: a code and the two `int` arguments `x`, `y`. -/
structure Event where
  code : Code
  x : Int
  y : Int
  deriving DecidableEq, Repr

/-- The struct `GameStats` read and written by `Game`. -/
structure GameStats where
  startTime : Int
  endTime : Int
  strokeCount : Int
  pausedStrokes : Int
  undoCount : Int
  ropeCount : Int
  pausedRopes : Int
  deriving DecidableEq, Repr

/-- The widgets `Game` creates, by the expression that creates them. -/
inductive WidgetKind where
  | pauseLabel        -- new Button("Gameplay paused", Event::PAUSE)
  | editLabel         -- new Button("Edit mode", Event::DONE)
  | messageBox (msg : String)  -- new MessageBox(msg)
  | mainMenu          -- createMainMenu(this)
  | nextLevelDialog   -- createNextLevelDialog(this)
  | editOpts          -- createEditOpts(this)
  | playOpts          -- createPlayOpts(this)
  | colourDialog      -- createColourDialog(this, ...)
  | toolDialog        -- createToolDialog(this)
  | editDoneDialog    -- createEditDoneDialog(this)
  deriving DecidableEq, Repr

/-- One call made by `Game` on its scene, its level list, the OS or the
widget toolkit, with the arguments of the call. -/
inductive Call where
  | reset (keepLog : Bool)                  -- m_scene.reset(NULL, keepLog)
  | start (replayFromLog : Bool)            -- m_scene.start(b)
  | load (level : Int)                      -- m_scene.load(m_levels->load(level))
  | protect (level : Option Int)            -- m_scene.protect(0) / m_scene.protect()
  | save (path : String) (demo : Bool)      -- m_scene.save(path[, true])
  | step (paused : Bool)                    -- m_scene.step(paused)
  | interact (p : Vec2)                     -- m_scene.interact(p)
  | newStroke (path : Path) (colour : Int) (attrib : Nat)
  | extendStroke (s : Stroke) (p : Vec2)
  | activateStroke (s : Stroke)
  | deleteStroke (s : Option Stroke)
  | moveStroke (s : Stroke) (p : Vec2)
  | newJetStream (p : Vec2)
  | resize (j : JetStream) (p : Vec2)       -- m_createJetStream->resize(p)
  | ropeify (s : Stroke)                    -- m_createStroke->ropeify(m_scene)
  | addPath (path : String)                 -- m_levels->addPath(path)
  | ensurePath (path : String)              -- OS->ensurePath(path)
  | create (k : WidgetKind)                 -- new ... / createXxx(this)
  | add (w : Widget)                        -- Container::add(w)
  | remove (w : Option Widget)              -- Container::remove(w)
  | animateTo (w : Widget) (away : Bool)    -- button->animateTo(...)
  | containerOnTick (tick : Int)            -- Container::onTick(tick)
  deriving DecidableEq, Repr

/-- Everything `Game` calls but does not define: the scene over its state
`σ`, and the level list, OS and toolkit over the outside state `ω`. -/
structure Env (σ ω : Type) where
  /-- The constant `REWIND_TICKS`. -/
  REWIND_TICKS : Int
  /-- The attribute bit `ATTRIB_GROUND`. -/
  ATTRIB_GROUND : Nat
  /-- The attribute bit `ATTRIB_SLEEPING`. -/
  ATTRIB_SLEEPING : Nat
  /-- The attribute bit `ATTRIB_DECOR`. -/
  ATTRIB_DECOR : Nat
  /-- The attribute bit `ATTRIB_INTERACTIVE`. -/
  ATTRIB_INTERACTIVE : Nat
  /-- Scene: `reset(NULL, keepLog)`. -/
  sceneReset : σ → Bool → σ
  /-- Scene: `start(replayFromLog)`. -/
  sceneStart : σ → Bool → σ
  /-- Scene: `load(data)`, the success flag and the scene afterwards. -/
  sceneLoad : σ → String → Bool × σ
  /-- Scene: `getLog()->size()`. -/
  sceneLogSize : σ → Nat
  /-- Scene: `protect(0)` (`some 0`) and `protect()` (`none`). -/
  sceneProtect : σ → Option Int → σ
  /-- Scene: `save(path, demo)`, writing to the outside world. -/
  sceneSave : σ → ω → String → Bool → Bool × σ × ω
  /-- Scene: `step(paused)`. -/
  sceneStep : σ → Bool → σ
  /-- Scene: `isCompleted()`. -/
  sceneIsCompleted : σ → Bool
  /-- Scene: `strokes()`, in creation order. -/
  sceneStrokes : σ → List Stroke
  /-- Scene: `interact(point)`. -/
  sceneInteract : σ → Vec2 → Bool × σ
  /-- Scene: `newStroke(path, colour, attrib)`. -/
  sceneNewStroke : σ → Path → Int → Nat → Option Stroke × σ
  /-- Scene: `extendStroke(stroke, point)`. -/
  sceneExtendStroke : σ → Stroke → Vec2 → σ
  /-- Scene: `activateStroke(stroke)`. -/
  sceneActivateStroke : σ → Stroke → Bool × σ
  /-- Scene: `deleteStroke(stroke)`, also called by `Game` with NULL. -/
  sceneDeleteStroke : σ → Option Stroke → Bool × σ
  /-- Scene: `strokeAtPoint(point, SELECT_TOLERANCE)`. -/
  sceneStrokeAtPoint : σ → Vec2 → Option Stroke
  /-- Scene: `moveStroke(stroke, point)`. -/
  sceneMoveStroke : σ → Stroke → Vec2 → σ
  /-- Scene: `newJetStream(point)`. -/
  sceneNewJetStream : σ → Vec2 → Option JetStream × σ
  /-- JetStream: `resize(point)` on a jet stream of the scene. -/
  jetResize : σ → JetStream → Vec2 → σ
  /-- Stroke: `ropeify(scene)`, the new strokes in order. -/
  strokeRopeify : σ → Stroke → List Stroke × σ
  /-- Stroke: `origin()`. -/
  strokeOrigin : σ → Stroke → Vec2
  /-- GameStats: `reset(t)`. -/
  statsReset : GameStats → Int → GameStats
  /-- Levels: `numLevels()`. -/
  numLevels : ω → Int
  /-- Levels: `load(level)`, the data handed to `Scene::load`. -/
  levelData : ω → Int → String
  /-- Levels: `addPath(path)`. -/
  addPath : ω → String → ω
  /-- Levels: `findLevel(path)`. -/
  findLevel : ω → String → Int
  /-- Levels: `demoPath(level)`. -/
  demoPath : ω → Int → String
  /-- Levels: `demoName(level)`. -/
  demoName : ω → Int → String
  /-- Os: `ticks()`. -/
  osTicks : ω → Int
  /-- Os: `exists(path)`. -/
  osExists : ω → String → Bool
  /-- Os: `ensurePath(path)`. -/
  osEnsurePath : ω → String → ω
  /-- Config: `userLevelFileName(file)`. -/
  userLevelFileName : String → String
  /-- Toolkit: the constructors and `createXxx(this)` factories (each returns
  the result of a `new`, never NULL). -/
  uiCreate : ω → WidgetKind → Widget × ω
  /-- Toolkit: `Container::add(w)`. -/
  uiAdd : ω → Widget → ω
  /-- Toolkit: `Container::remove(w)`. -/
  uiRemove : ω → Option Widget → ω
  /-- Toolkit: `Widget::animateTo` on one of the two corner buttons. -/
  uiAnimateTo : ω → Widget → Bool → ω
  /-- Toolkit: `Container::onTick(tick)`; the children it ticks may close
  themselves, which reaches `Game` as calls of the virtual `remove`, listed
  in the order they happen. -/
  uiOnTick : ω → Int → List (Option Widget) × ω

/-- The fields of `GameControl` used by `Game` and of `Game` itself, with the
outside state and the call log. -/
structure Game (σ ω : Type) where
  m_level : Int
  m_edit : Bool
  m_paused : Bool
  m_replaying : Bool
  m_colour : Int
  m_strokeFixed : Bool
  m_strokeSleep : Bool
  m_strokeDecor : Bool
  m_strokeRope : Bool
  m_interactiveDraw : Bool
  m_clickMode : ClickMode
  m_stats : GameStats
  m_scene : σ
  m_createStroke : Option Stroke
  m_moveStroke : Option Stroke
  m_createJetStream : Option JetStream
  m_moveOffset : Vec2
  m_pauseLabel : Option Widget
  m_editLabel : Option Widget
  m_completedDialog : Option Widget
  m_options : Option Widget
  m_clickModeLabel : String
  m_eventMap : EventMapType
  m_isCompleted : Bool
  m_left_button : Widget
  m_right_button : Widget
  m_reset_countdown : Int
  world : ω
  trace : List Call

variable {σ ω : Type}

/-! ## The calls of `Game` on its collaborators

Each wrapper performs the call through `Env` and appends it to the log. -/

/-- Call `m_scene.reset(NULL, keepLog)`. -/
@[simp]
def scReset (env : Env σ ω) (g : Game σ ω) (keepLog : Bool) : Game σ ω :=
  { g with m_scene := env.sceneReset g.m_scene keepLog, trace := g.trace ++ [Call.reset keepLog] }

/-- Call `m_scene.start(replayFromLog)`. -/
@[simp]
def scStart (env : Env σ ω) (g : Game σ ω) (replayFromLog : Bool) : Game σ ω :=
  { g with m_scene := env.sceneStart g.m_scene replayFromLog,
           trace := g.trace ++ [Call.start replayFromLog] }

/-- Call `m_scene.load(m_levels->load(level))`. -/
@[simp]
def scLoad (env : Env σ ω) (g : Game σ ω) (level : Int) : Bool × Game σ ω :=
  let r := env.sceneLoad g.m_scene (env.levelData g.world level)
  (r.1, { g with m_scene := r.2, trace := g.trace ++ [Call.load level] })

/-- Call `m_scene.protect(0)` (`some 0`) or `m_scene.protect()` (`none`). -/
@[simp]
def scProtect (env : Env σ ω) (g : Game σ ω) (level : Option Int) : Game σ ω :=
  { g with m_scene := env.sceneProtect g.m_scene level, trace := g.trace ++ [Call.protect level] }

/-- Call `m_scene.save(path)` or `m_scene.save(path, true)`. -/
@[simp]
def scSave (env : Env σ ω) (g : Game σ ω) (path : String) (demo : Bool) : Bool × Game σ ω :=
  let r := env.sceneSave g.m_scene g.world path demo
  (r.1, { g with m_scene := r.2.1, world := r.2.2, trace := g.trace ++ [Call.save path demo] })

/-- Call `m_scene.step(paused)`. -/
@[simp]
def scStep (env : Env σ ω) (g : Game σ ω) (paused : Bool) : Game σ ω :=
  { g with m_scene := env.sceneStep g.m_scene paused, trace := g.trace ++ [Call.step paused] }

/-- Call `m_scene.interact(p)`. -/
@[simp]
def scInteract (env : Env σ ω) (g : Game σ ω) (p : Vec2) : Bool × Game σ ω :=
  let r := env.sceneInteract g.m_scene p
  (r.1, { g with m_scene := r.2, trace := g.trace ++ [Call.interact p] })

/-- Call `m_scene.newStroke(path, colour, attrib)`. -/
@[simp]
def scNewStroke (env : Env σ ω) (g : Game σ ω) (path : Path) (colour : Int) (attrib : Nat) :
    Option Stroke × Game σ ω :=
  let r := env.sceneNewStroke g.m_scene path colour attrib
  (r.1, { g with m_scene := r.2, trace := g.trace ++ [Call.newStroke path colour attrib] })

/-- Call `m_scene.extendStroke(s, p)`. -/
@[simp]
def scExtendStroke (env : Env σ ω) (g : Game σ ω) (s : Stroke) (p : Vec2) : Game σ ω :=
  { g with m_scene := env.sceneExtendStroke g.m_scene s p,
           trace := g.trace ++ [Call.extendStroke s p] }

/-- Call `m_scene.activateStroke(s)`. -/
@[simp]
def scActivateStroke (env : Env σ ω) (g : Game σ ω) (s : Stroke) : Bool × Game σ ω :=
  let r := env.sceneActivateStroke g.m_scene s
  (r.1, { g with m_scene := r.2, trace := g.trace ++ [Call.activateStroke s] })

/-- Call `m_scene.deleteStroke(s)`. -/
@[simp]
def scDeleteStroke (env : Env σ ω) (g : Game σ ω) (s : Option Stroke) : Bool × Game σ ω :=
  let r := env.sceneDeleteStroke g.m_scene s
  (r.1, { g with m_scene := r.2, trace := g.trace ++ [Call.deleteStroke s] })

/-- Call `m_scene.moveStroke(s, p)`. -/
@[simp]
def scMoveStroke (env : Env σ ω) (g : Game σ ω) (s : Stroke) (p : Vec2) : Game σ ω :=
  { g with m_scene := env.sceneMoveStroke g.m_scene s p, trace := g.trace ++ [Call.moveStroke s p] }

/-- Call `m_scene.newJetStream(p)`. -/
@[simp]
def scNewJetStream (env : Env σ ω) (g : Game σ ω) (p : Vec2) : Option JetStream × Game σ ω :=
  let r := env.sceneNewJetStream g.m_scene p
  (r.1, { g with m_scene := r.2, trace := g.trace ++ [Call.newJetStream p] })

/-- Call `j->resize(p)` on a jet stream that is not NULL. -/
@[simp]
def jsResize (env : Env σ ω) (g : Game σ ω) (j : JetStream) (p : Vec2) : Game σ ω :=
  { g with m_scene := env.jetResize g.m_scene j p, trace := g.trace ++ [Call.resize j p] }

/-- Call `s->ropeify(m_scene)`. -/
@[simp]
def stRopeify (env : Env σ ω) (g : Game σ ω) (s : Stroke) : List Stroke × Game σ ω :=
  let r := env.strokeRopeify g.m_scene s
  (r.1, { g with m_scene := r.2, trace := g.trace ++ [Call.ropeify s] })

/-- Call `m_levels->addPath(path)`. -/
@[simp]
def lvAddPath (env : Env σ ω) (g : Game σ ω) (path : String) : Game σ ω :=
  { g with world := env.addPath g.world path, trace := g.trace ++ [Call.addPath path] }

/-- Call `OS->ensurePath(path)`. -/
@[simp]
def osEnsurePath (env : Env σ ω) (g : Game σ ω) (path : String) : Game σ ω :=
  { g with world := env.osEnsurePath g.world path, trace := g.trace ++ [Call.ensurePath path] }

/-- A `new Xxx(...)` or `createXxx(this)`. -/
@[simp]
def uiCreate (env : Env σ ω) (g : Game σ ω) (k : WidgetKind) : Widget × Game σ ω :=
  let r := env.uiCreate g.world k
  (r.1, { g with world := r.2, trace := g.trace ++ [Call.create k] })

/-- The inherited `Container::add(w)`. -/
@[simp]
def containerAdd (env : Env σ ω) (g : Game σ ω) (w : Widget) : Game σ ω :=
  { g with world := env.uiAdd g.world w, trace := g.trace ++ [Call.add w] }

/-- The inherited `Container::remove(w)`. -/
@[simp]
def containerRemove (env : Env σ ω) (g : Game σ ω) (w : Option Widget) : Game σ ω :=
  { g with world := env.uiRemove g.world w, trace := g.trace ++ [Call.remove w] }

/-- Call `button->animateTo(...)`. -/
@[simp]
def uiAnimateTo (env : Env σ ω) (g : Game σ ω) (w : Widget) (away : Bool) : Game σ ω :=
  { g with world := env.uiAnimateTo g.world w away, trace := g.trace ++ [Call.animateTo w away] }

/-! ## The methods of `Game` (src/Game.cpp) -/

/-- Method `Game::gotoLevel(level, replay)`. -/
def gotoLevel (env : Env σ ω) (g : Game σ ω) (level : Int) (replay : Bool) : Game σ ω :=
  let g1 : Game σ ω := { g with m_replaying := replay }
  let r : Bool × Game σ ω :=
    if replay then
      -- reset scene, delete user strokes, but retain log
      (true, scStart env (scReset env g1 true) true)
    else if 0 ≤ level ∧ level < env.numLevels g1.world then
      let l := scLoad env g1 level
      if l.1 then
        (true, scStart env l.2 (decide (env.sceneLogSize l.2.m_scene > 0)))
      else (false, l.2)
    else (false, g1)
  if r.1 then
    let g2 := if r.2.m_edit then scProtect env r.2 (some 0) else r.2
    let g3 : Game σ ω := { g2 with m_level := level }
    if !g3.m_replaying then
      { g3 with m_stats := env.statsReset g3.m_stats (env.osTicks g3.world) }
    else g3
  else r.2

/-- Method `Game::showMessage(msg)`: `add(new MessageBox(msg))`. -/
def showMessage (env : Env σ ω) (g : Game σ ω) (msg : String) : Game σ ω :=
  let c := uiCreate env g (WidgetKind.messageBox msg)
  containerAdd env c.2 c.1

/-- The path `p` of `Game::save(file)`: `file` itself, or for the default
argument `file=NULL` the user level file of "L99_saved.npsvg". -/
def savePath (env : Env σ ω) (file : Option String) : String :=
  match file with
  | some f => f
  | none => env.userLevelFileName "L99_saved.npsvg"

/-- Method `Game::save(file)`; `none` is the default argument `file=NULL`. -/
def save (env : Env σ ω) (g : Game σ ω) (file : Option String) : Bool × Game σ ω :=
  let file1 : String := match file with
    | some f => f
    | none => "L99_saved.npsvg"
  let p : String := savePath env file
  let r := scSave env g p false
  if r.1 then
    let g1 := lvAddPath env r.2 p
    let l := env.findLevel g1.world p
    let g2 : Game σ ω := if l ≥ 0 then { g1 with m_level := l } else g1
    (true, showMessage env g2 ("<P align=center>saved to<BR>" ++ file1))
  else (false, r.2)

/-- Method `Game::saveDemo()`. -/
def saveDemo (env : Env σ ω) (g : Game σ ω) : Game σ ω :=
  let path := env.demoPath g.world g.m_level
  if path ≠ "" then
    let g1 := osEnsurePath env g path
    (scSave env g1 (env.demoName g1.world g1.m_level) true).2
  else g

/-- Method `Game::clickMode(cm)`. -/
def clickMode (g : Game σ ω) (cm : ClickMode) : Game σ ω :=
  if cm ≠ g.m_clickMode then
    match cm with
    | .CLICK_MODE_DRAW_STROKE =>
      { g with m_clickMode := cm, m_eventMap := .GAME_MAP, m_clickModeLabel := "" }
    | .CLICK_MODE_MOVE =>
      { g with m_clickMode := cm, m_eventMap := .GAME_MOVE_MAP, m_clickModeLabel := "Move mode" }
    | .CLICK_MODE_ERASE =>
      { g with m_clickMode := cm, m_eventMap := .GAME_ERASE_MAP, m_clickModeLabel := "Erase mode" }
    | .CLICK_MODE_DRAW_JETSTREAM =>
      { g with m_clickMode := cm, m_eventMap := .GAME_JETSTREAM_MAP,
               m_clickModeLabel := "Create jet stream" }
  else g

/-- Method `Game::toggleClickMode(cm)`. -/
def toggleClickMode (g : Game σ ω) (cm : ClickMode) : Game σ ω :=
  if cm = g.m_clickMode then clickMode g .CLICK_MODE_DRAW_STROKE else clickMode g cm

/-- Method `Game::setTool(t)`. -/
def setTool (g : Game σ ω) (t : Int) : Game σ ω := { g with m_colour := t }

/-- Method `Game::editMode(set)`. -/
def editMode (g : Game σ ω) (set : Bool) : Game σ ω := { g with m_edit := set }

/-- Method `Game::remove(w)`, the override of the virtual `remove`. -/
def remove (env : Env σ ω) (g : Game σ ω) (w : Option Widget) : Game σ ω :=
  let g1 : Game σ ω := if w = g.m_completedDialog then { g with m_completedDialog := none } else g
  containerRemove env g1 w

/-- Method `Game::togglePause()`. -/
def togglePause (env : Env σ ω) (g : Game σ ω) : Game σ ω :=
  if !g.m_paused then
    let c : Widget × Game σ ω := match g.m_pauseLabel with
      | none =>
        let n := uiCreate env g WidgetKind.pauseLabel
        (n.1, { n.2 with m_pauseLabel := some n.1 })
      | some w => (w, g)
    { containerAdd env c.2 c.1 with m_paused := true }
  else
    { remove env g g.m_pauseLabel with m_pauseLabel := none, m_paused := false }

/-- Method `Game::isPaused()`. -/
def isPaused (g : Game σ ω) : Bool := g.m_paused

/-- Method `Game::edit(doEdit)`. -/
def edit (env : Env σ ω) (g : Game σ ω) (doEdit : Bool) : Game σ ω :=
  if g.m_edit ≠ doEdit then
    let g1 : Game σ ω := { g with m_edit := doEdit }
    if g1.m_edit then
      let c : Widget × Game σ ω := match g1.m_editLabel with
        | none =>
          let n := uiCreate env g1 WidgetKind.editLabel
          (n.1, { n.2 with m_editLabel := some n.1 })
        | some w => (w, g1)
      scProtect env (containerAdd env c.2 c.1) (some 0)
    else
      let g2 : Game σ ω :=
        { remove env g1 g1.m_editLabel with
            m_editLabel := none, m_strokeFixed := false, m_strokeSleep := false,
            m_strokeDecor := false }
      let g3 : Game σ ω := if g2.m_colour < 2 then { g2 with m_colour := 2 } else g2
      scProtect env g3 none
  else g

/-- Method `Game::mousePoint(ev)`. -/
def mousePoint (ev : Event) : Vec2 := ⟨ev.x, ev.y⟩

/-- The inherited `Container::onTick(tick)`: the toolkit ticks the children;
each child that closes itself calls the virtual `remove` of its parent, whose
`Game` part clears `m_completedDialog` when that is the widget removed. -/
def containerOnTick (env : Env σ ω) (g : Game σ ω) (tick : Int) : Game σ ω :=
  let r := env.uiOnTick g.world tick
  let g1 : Game σ ω := { g with world := r.2, trace := g.trace ++ [Call.containerOnTick tick] }
  r.1.foldl
    (fun (h : Game σ ω) w => if w = h.m_completedDialog then { h with m_completedDialog := none } else h)
    g1

/-- The countdown block of `Game::onTick` (`if (m_reset_countdown > 0) ...`):
the level is reloaded when the countdown passes `REWIND_TICKS / 2`. -/
def tickCountdown (env : Env σ ω) (g : Game σ ω) : Game σ ω :=
  if g.m_reset_countdown > 0 then
    let h : Game σ ω := { g with m_reset_countdown := g.m_reset_countdown - 1 }
    if h.m_reset_countdown = Int.tdiv env.REWIND_TICKS 2 then gotoLevel env h h.m_level false
    else h
  else g

/-- The block `if ( m_isCompleted && m_completedDialog && m_edit )` of
`Game::onTick`. -/
def tickEditClear (env : Env σ ω) (g : Game σ ω) : Game σ ω :=
  if g.m_isCompleted ∧ g.m_completedDialog ≠ none ∧ g.m_edit then
    { remove env g g.m_completedDialog with m_completedDialog := none, m_isCompleted := false }
  else g

/-- The branch `if ( m_isCompleted )` of the completion block of
`Game::onTick`: set the end time, show the completion dialog, save the demo. -/
def reportCompletion (env : Env σ ω) (h : Game σ ω) : Game σ ω :=
  let h1 : Game σ ω :=
    if h.m_stats.endTime = 0 then
      -- don't overwrite time after replay
      { h with m_stats := { h.m_stats with endTime := env.osTicks h.world } }
    else h
  let c := uiCreate env h1 WidgetKind.nextLevelDialog
  let h2 : Game σ ω := { c.2 with m_completedDialog := some c.1 }
  saveDemo env (containerAdd env h2 c.1)

/-- The block `if ( m_scene.isCompleted() != m_isCompleted && !m_edit )` of
`Game::onTick`. -/
def tickCompletion (env : Env σ ω) (g : Game σ ω) : Game σ ω :=
  if env.sceneIsCompleted g.m_scene ≠ g.m_isCompleted ∧ ¬ g.m_edit then
    let h : Game σ ω := { g with m_isCompleted := env.sceneIsCompleted g.m_scene }
    if h.m_isCompleted then reportCompletion env h
    else if h.m_completedDialog ≠ none then
      { remove env h h.m_completedDialog with m_completedDialog := none }
    else h
  else g

/-- Method `Game::onTick(tick)`: step the scene, then the three blocks above
in the order of the source, then the inherited `Container::onTick`. -/
def onTick (env : Env σ ω) (g : Game σ ω) (tick : Int) : Game σ ω :=
  containerOnTick env
    (tickCompletion env (tickEditClear env (tickCountdown env (scStep env g (isPaused g))))) tick

/-- The loop of the `NEXT` case: `while (m_level < numLevels() &&
exists(demoName(m_level))) m_level++`, run for at most `fuel` rounds. -/
def skipCompleted (env : Env σ ω) (w : ω) : Nat → Int → Int
  | 0, l => l
  | fuel + 1, l =>
    if l < env.numLevels w ∧ env.osExists w (env.demoName w l) = true then
      skipCompleted env w fuel (l + 1)
    else l

/-- The loop of the `DRAWEND` case: `for (auto &stroke: ...)
m_scene.activateStroke(stroke)`. -/
def activateAll (env : Env σ ω) (g : Game σ ω) : List Stroke → Game σ ω
  | [] => g
  | s :: rest => activateAll env (scActivateStroke env g s).2 rest

/-- The attribute mask built in the `DRAWBEGIN` case. -/
def drawAttrib (env : Env σ ω) (g : Game σ ω) : Nat :=
  let a0 : Nat := 0
  let a1 := if g.m_strokeFixed then a0 ||| env.ATTRIB_GROUND else a0
  let a2 := if g.m_strokeSleep then a1 ||| env.ATTRIB_SLEEPING else a1
  let a3 := if g.m_strokeDecor then a2 ||| env.ATTRIB_DECOR else a2
  if g.m_interactiveDraw then a3 ||| env.ATTRIB_INTERACTIVE else a3

/-- Method `Game::onEvent(ev)`: the value returned (`used`) and the game
afterwards; `none` when the handler dereferences a NULL pointer
(`m_createJetStream->resize` in the `JETSTREAMMORE` case). -/
def onEvent (env : Env σ ω) (g : Game σ ω) (ev : Event) : Option (Bool × Game σ ω) :=
  match ev.code with
  | .MENU =>
    let g1 := remove env g g.m_completedDialog
    let c := uiCreate env g1 WidgetKind.mainMenu
    some (true, containerAdd env c.2 c.1)
  | .PAUSE => some (true, togglePause env g)
  | .UNDO =>
    if !g.m_replaying then
      match g.m_createStroke with
      | some s =>
        some (true, { (scDeleteStroke env g (some s)).2 with m_createStroke := none })
      | none =>
        if (env.sceneStrokes g.m_scene).length ≠ 0 then
          let d := scDeleteStroke env g (env.sceneStrokes g.m_scene).getLast?
          if d.1 then
            some (true, { d.2 with m_stats := { d.2.m_stats with undoCount := d.2.m_stats.undoCount + 1 } })
          else some (true, d.2)
        else some (true, g)
    else some (true, g)
  | .SAVE => some (true, (save env g none).2)
  | .CANCEL => if g.m_edit then some (true, edit env g false) else some (true, g)
  | .OPTION =>
    let g1 := remove env g g.m_options
    let g2 : Game σ ω :=
      if ev.x = 1 then
        -- edit menu
        let c := uiCreate env g1 WidgetKind.editOpts
        uiAnimateTo env { c.2 with m_options := some c.1 } c.2.m_left_button true
      else if ev.x = 2 then
        -- play menu
        let c := uiCreate env g1 WidgetKind.playOpts
        uiAnimateTo env { c.2 with m_options := some c.1 } c.2.m_right_button true
      else g1
    match g2.m_options with
    | some w => some (true, containerAdd env g2 w)
    | none => some (true, g2)
  | .POPUP_CLOSING =>
    some (false, uiAnimateTo env (uiAnimateTo env g g.m_left_button false) g.m_right_button false)
  | .SELECT =>
    if ev.x = 1 then
      if ev.y = -1 then
        let c := uiCreate env g WidgetKind.colourDialog
        some (true, containerAdd env c.2 c.1)
      else some (true, setTool g ev.y)
    else if ev.x = 2 then
      if ev.y = -1 then
        let c := uiCreate env g WidgetKind.toolDialog
        some (true, containerAdd env c.2 c.1)
      else some (true, g)
    else some (true, g)
  | .EDIT =>
    let g1 := edit env g (!g.m_edit)
    if g1.m_edit ∧ ¬ g1.m_paused then some (true, togglePause env g1) else some (true, g1)
  | .DONE =>
    if g.m_edit then
      let c := uiCreate env g WidgetKind.editDoneDialog
      some (true, containerAdd env c.2 c.1)
    else some (true, g)
  | .RESET => some (true, { g with m_reset_countdown := env.REWIND_TICKS })
  | .NEXT =>
    if g.m_level = 0 ∧ g.m_isCompleted then
      -- from title try to find the first uncompleted level
      let l := skipCompleted env g.world (env.numLevels g.world - g.m_level).toNat g.m_level
      let g1 : Game σ ω := { g with m_level := l }
      some (true, gotoLevel env g1 g1.m_level false)
    else some (true, gotoLevel env g (g.m_level + 1) false)
  | .PREVIOUS => some (true, gotoLevel env g (g.m_level - 1) false)
  | .REPLAY => some (true, gotoLevel env g ev.x true)
  | .PLAY => some (true, gotoLevel env g ev.x false)
  | .DRAWBEGIN =>
    if ¬ g.m_replaying ∧ g.m_createStroke = none then
      let i := scInteract env g (mousePoint ev)
      if !i.1 then
        let n := scNewStroke env i.2 (Path.and [] (mousePoint ev)) i.2.m_colour (drawAttrib env i.2)
        some (true, { n.2 with m_createStroke := n.1 })
      else some (true, i.2)
    else some (true, g)
  | .DRAWMORE =>
    match g.m_createStroke with
    | some s => some (true, scExtendStroke env g s (mousePoint ev))
    | none => some (true, g)
  | .DRAWEND =>
    match g.m_createStroke with
    | some s =>
      if g.m_strokeRope then
        let g1 : Game σ ω := { g with m_stats := { g.m_stats with ropeCount := g.m_stats.ropeCount + 1 } }
        let g2 : Game σ ω :=
          if isPaused g1 then
            { g1 with m_stats := { g1.m_stats with pausedRopes := g1.m_stats.pausedRopes + 1 } }
          else g1
        let r := stRopeify env g2 s
        let g3 := activateAll env r.2 r.1
        some (true, { (scDeleteStroke env g3 (some s)).2 with m_createStroke := none })
      else
        let a := scActivateStroke env g s
        if a.1 then
          let g1 : Game σ ω :=
            { a.2 with m_stats := { a.2.m_stats with strokeCount := a.2.m_stats.strokeCount + 1 } }
          let g2 : Game σ ω :=
            if isPaused g1 then
              { g1 with m_stats := { g1.m_stats with pausedStrokes := g1.m_stats.pausedStrokes + 1 } }
            else g1
          some (true, { g2 with m_createStroke := none })
        else
          some (true, { (scDeleteStroke env a.2 (some s)).2 with m_createStroke := none })
    | none => some (true, g)
  | .MOVEBEGIN =>
    if ¬ g.m_replaying ∧ g.m_moveStroke = none then
      let point := mousePoint ev
      let g1 : Game σ ω := { g with m_moveStroke := env.sceneStrokeAtPoint g.m_scene point }
      match g1.m_moveStroke with
      | some s => some (true, { g1 with m_moveOffset := Vec2.sub point (env.strokeOrigin g1.m_scene s) })
      | none => some (true, g1)
    else some (true, g)
  | .MOVEMORE =>
    match g.m_moveStroke with
    | some s => some (true, scMoveStroke env g s (Vec2.sub (mousePoint ev) g.m_moveOffset))
    | none => some (true, g)
  | .MOVEEND => some (true, { g with m_moveStroke := none })
  | .JETSTREAMBEGIN =>
    let n := scNewJetStream env g (mousePoint ev)
    some (true, { n.2 with m_createJetStream := n.1 })
  | .JETSTREAMMORE =>
    match g.m_createJetStream with
    | some j => some (true, jsResize env g j (mousePoint ev))
    | none => none
  | .JETSTREAMEND => some (true, { g with m_createJetStream := none })
  | .DELETE =>
    some (true, (scDeleteStroke env g (env.sceneStrokeAtPoint g.m_scene (mousePoint ev))).2)
  | .OTHER _ =>
    -- Container::onEvent is the inherited Widget::onEvent: return false
    some (false, g)

/-! ## The tool dialog (src/Dialogs.cpp) -/

/-- The struct `ToggleMenuItem`: the label of the menu item, the status query
`toggled` and the click handler `clicked`, both over the `GameControl`. -/
structure ToggleMenuItem (σ ω : Type) where
  label : String
  toggled : Game σ ω → Bool
  clicked : Game σ ω → Bool × Game σ ω

/-- The table `toolOpts`: ground, sleepy, decor, move, erase, jetstream, rope,
interactive. -/
def toolOpts (σ ω : Type) : List (ToggleMenuItem σ ω) :=
  [ { label := "ground"
      toggled := fun game => game.m_strokeFixed
      clicked := fun game =>
        (true, { game with m_strokeFixed := !game.m_strokeFixed, m_strokeSleep := false,
                           m_strokeDecor := false }) },
    { label := "sleepy"
      toggled := fun game => game.m_strokeSleep
      clicked := fun game =>
        (true, { game with m_strokeFixed := false, m_strokeSleep := !game.m_strokeSleep,
                           m_strokeDecor := false }) },
    { label := "decor"
      toggled := fun game => game.m_strokeDecor
      clicked := fun game =>
        (true, { game with m_strokeFixed := false, m_strokeSleep := false,
                           m_strokeDecor := !game.m_strokeDecor }) },
    { label := "move"
      toggled := fun game => decide (game.m_clickMode = ClickMode.CLICK_MODE_MOVE)
      clicked := fun game => (true, toggleClickMode game ClickMode.CLICK_MODE_MOVE) },
    { label := "erase"
      toggled := fun game => decide (game.m_clickMode = ClickMode.CLICK_MODE_ERASE)
      clicked := fun game => (true, toggleClickMode game ClickMode.CLICK_MODE_ERASE) },
    { label := "jetstream"
      toggled := fun game => decide (game.m_clickMode = ClickMode.CLICK_MODE_DRAW_JETSTREAM)
      clicked := fun game => (true, toggleClickMode game ClickMode.CLICK_MODE_DRAW_JETSTREAM) },
    { label := "rope"
      toggled := fun game => game.m_strokeRope
      clicked := fun game => (true, { game with m_strokeRope := !game.m_strokeRope }) },
    { label := "interactive"
      toggled := fun game => game.m_interactiveDraw
      clicked := fun game => (true, { game with m_interactiveDraw := !game.m_interactiveDraw }) } ]

/-- The conversion of an `int` to `size_t` (64 bits, unsigned) that the
comparison `ev.x < ARRAY_SIZE(toolOpts)` applies to its left operand. -/
def toSizeT (x : Int) : Nat := (x % 2 ^ 64).toNat

/-- The macro `ARRAY_SIZE` of Common.h at `toolOpts`:
`sizeof(toolOpts)/sizeof(toolOpts[0])`, a `size_t`. -/
def ARRAY_SIZE_toolOpts (σ ω : Type) : Nat := (toolOpts σ ω).length

/-- The two stock icons the tool dialog sets on its option buttons. -/
inductive StockIcon where
  | TICK
  | BLANK
  deriving DecidableEq, Repr

/-- The class `ToolDialog`: `m_opts`, here the icon set on each option button
(`m_game` is the `Game` passed along). -/
structure ToolDialog where
  m_opts : List StockIcon
  deriving DecidableEq, Repr

/-- Method `ToolDialog::updateTicks()`. -/
def ToolDialog.updateTicks (d : ToolDialog) (game : Game σ ω) : ToolDialog :=
  { m_opts := (List.range d.m_opts.length).map (fun (i : Nat) =>
      let tick : Bool :=
        if toSizeT (Int.ofNat i) < ARRAY_SIZE_toolOpts σ ω then
          match (toolOpts σ ω)[i]? with
          | some o => o.toggled game
          | none => false
        else false
      if tick then StockIcon.TICK else StockIcon.BLANK) }

/-- The call `MenuDialog::onEvent(ev)` at the end of `ToolDialog::onEvent`:
the base class knows the dialog as a widget only, so it acts on the toolkit
state; `base` is its effect there and the value it returns. -/
def menuDialogOnEvent (base : ω → Event → Bool × ω) (d : ToolDialog) (game : Game σ ω)
    (ev : Event) : Bool × ToolDialog × Game σ ω :=
  ((base game.world ev).1, d, { game with world := (base game.world ev).2 })

/-- Method `ToolDialog::onEvent(ev)`: the value returned, the dialog and the
`GameControl` afterwards. -/
def ToolDialog.onEvent (base : ω → Event → Bool × ω) (d : ToolDialog) (game : Game σ ω)
    (ev : Event) : Bool × ToolDialog × Game σ ω :=
  if ev.code = Code.SELECT then
    if toSizeT ev.x < ARRAY_SIZE_toolOpts σ ω then
      match (toolOpts σ ω)[ev.x.toNat]? with
      | some o =>
        let r := o.clicked game
        if r.1 then (true, d.updateTicks r.2, r.2)
        else menuDialogOnEvent base d game ev
      | none => menuDialogOnEvent base d game ev
    else
      -- LOG_WARNING("Ignoring select event for invalid index %d", ev.x)
      menuDialogOnEvent base d game ev
  else menuDialogOnEvent base d game ev

/-- The tool flags `m_strokeFixed`, `m_strokeSleep`, `m_strokeDecor` are not
set two at a time. -/
def atMostOneTool (game : Game σ ω) : Bool :=
  !(game.m_strokeFixed && game.m_strokeSleep) && !(game.m_strokeFixed && game.m_strokeDecor) &&
    !(game.m_strokeSleep && game.m_strokeDecor)

/-! ## The completion dialog (src/Dialogs.cpp) -/

/-- The label `time: ...` built by the constructor
`NextLevelDialog::NextLevelDialog` from the statistics; `%d` prints an `int`
in decimal. -/
def timeLabel (stats : GameStats) : String :=
  let time := Int.tdiv (stats.endTime - stats.startTime) 1000
  let h := Int.tdiv (Int.tdiv time 60) 60
  let m := Int.tdiv time 60 - h * 60
  let s := time - m * 60
  if h > 0 then
    "time: " ++ toString m ++ "h " ++ toString h ++ "m " ++ toString s ++ "s"
  else if m > 0 then
    let m1 := Int.tdiv (Int.tdiv time 60) 1000
    "time: " ++ toString m1 ++ "m " ++ toString s ++ "s"
  else
    "time: " ++ toString s ++ "s"

/-- The label as the specification describes it, for `t` whole seconds: hours
`h`, minutes `m` and seconds `s` with `h*3600 + m*60 + s = t`, `m < 60` and
`s < 60`, each next to its own unit, without the hours when `h = 0` and
without the minutes when `h = 0` and `m = 0`. -/
def timeLabelSpec (t : Int) : String :=
  let h := t / 3600
  let m := (t / 60) % 60
  let s := t % 60
  if h > 0 then
    "time: " ++ toString h ++ "h " ++ toString m ++ "m " ++ toString s ++ "s"
  else if m > 0 then
    "time: " ++ toString m ++ "m " ++ toString s ++ "s"
  else
    "time: " ++ toString s ++ "s"

/-- The statistics of a level that took `ms` milliseconds. -/
def statsFor (ms : Int) : GameStats := ⟨1000, 1000 + ms, 3, 0, 0, 0, 0⟩

/-! ## The level selector (src/Dialogs.cpp) -/

/-- What `LevelSelector::setCollection` asks of `Levels` and of a fresh
`Scene`: `numCollections()`, `collectionSize(c)`, `collectionLevel(c, i)`
and whether `scene.load(m_levels->load(level))` succeeds. -/
structure SelectorEnv where
  numCollections : Int
  collectionSize : Int → Int
  collectionLevel : Int → Int → Int
  loads : Int → Bool

/-- The constant `LevelSelector::THUMB_COUNT`, the length of `m_thumbs`. -/
def THUMB_COUNT : Int := 32

/-- The fields `m_collection`, `m_dispbase`, `m_dispcount` of `LevelSelector`
and the indices `i` of its accesses `m_thumbs[i]`, in the order they are
made. -/
structure LevelSelector where
  m_collection : Int
  m_dispbase : Int
  m_dispcount : Int
  thumbAccess : List Int
  deriving DecidableEq, Repr

/-- Method `LevelSelector::setCollection(c)`.  The first loop,
`for (int i=0; i<m_dispcount; i++)`, writes `m_thumbs[i]` and reads it four
times (`font`, `setBg`, `border`, `hbox->add`); the second loop,
`for (int i=0; i<THUMB_COUNT && i+m_dispbase<m_dispcount; i++)`, reads it
twice (`text`, `image`) when the level loads. -/
def LevelSelector.setCollection (le : SelectorEnv) (d : LevelSelector) (c : Int) :
    LevelSelector :=
  if c < 0 ∨ c ≥ le.numCollections then d
  else
    let d1 : LevelSelector :=
      { d with m_collection := c, m_dispbase := 0, m_dispcount := le.collectionSize c }
    let loop1 : List Int :=
      ((List.range d1.m_dispcount.toNat).map
        (fun (i : Nat) => List.replicate 5 (Int.ofNat i))).flatten
    let loop2 : List Int :=
      (((List.range THUMB_COUNT.toNat).takeWhile
          (fun (i : Nat) => decide (Int.ofNat i + d1.m_dispbase < d1.m_dispcount))).map
        (fun (i : Nat) =>
          if le.loads (le.collectionLevel c (Int.ofNat i)) then List.replicate 2 (Int.ofNat i)
          else [])).flatten
    { d1 with thumbAccess := d1.thumbAccess ++ loop1 ++ loop2 }

/-- A level list of two collections, with 3 and with 33 levels, all of which
load. -/
def toySelectorEnv : SelectorEnv where
  numCollections := 2
  collectionSize := fun c => if c = 0 then 3 else 33
  collectionLevel := fun c i => c * 3 + i
  loads := fun _ => true

/-- A selector that has not accessed `m_thumbs` yet. -/
def toySelector : LevelSelector := ⟨0, 0, 0, []⟩

/-! ## The contract of `Stroke::ropeify` -/

/-- Modelled from the spec: `Stroke::ropeify` is not under src/; it "returns
the ordered new strokes; the source stroke is left inert and must be
explicitly deleted by the caller".  The strokes returned for the source `s`
in the scene `sc` are new strokes: the source `s` is not one of them. -/
def ropeifyNew (env : Env σ ω) (sc : σ) (s : Stroke) : Bool :=
  !(env.strokeRopeify sc s).1.contains s

/-! ## Machine integers -/

/-- The value of an `int` expression under two's-complement wrap-around. -/
def wrap32 (x : Int) : Int := (x + 2 ^ 31) % 2 ^ 32 - 2 ^ 31

/-- The values of `int`. -/
def isInt32 (x : Int) : Bool := decide (-(2 ^ 31) ≤ x) && decide (x < 2 ^ 31)

/-! ## Sequences of ticks and events -/

/-- What the main loop delivers to `Game`: a tick or an event. -/
inductive Input where
  | tick (n : Int)
  | event (ev : Event)
  deriving DecidableEq, Repr

/-- Deliver one input; `none` when the handler dereferences NULL. -/
def deliver (env : Env σ ω) (g : Game σ ω) : Input → Option (Game σ ω)
  | .tick n => some (onTick env g n)
  | .event ev => (onEvent env g ev).map (fun r => r.2)

/-- Deliver the inputs in order. -/
def run (env : Env σ ω) (g : Game σ ω) : List Input → Option (Game σ ω)
  | [] => some g
  | i :: rest => (deliver env g i).bind (fun g1 => run env g1 rest)

/-- An input that is neither a reset nor a level change: a tick, or an event
other than `RESET`, `NEXT`, `PREVIOUS`, `REPLAY` and `PLAY`. -/
def Input.keepsLevel : Input → Bool
  | .tick _ => true
  | .event ev =>
    match ev.code with
    | .RESET | .NEXT | .PREVIOUS | .REPLAY | .PLAY => false
    | _ => true

/-- An input that does not toggle edit mode: anything but an `EDIT` event. -/
def Input.keepsMode : Input → Bool
  | .tick _ => true
  | .event ev =>
    match ev.code with
    | .EDIT => false
    | _ => true

/-- The assumption "`Scene.isCompleted()` stays true once it is true": no
scene operation other than `reset`, `load`, `start` and `protect` takes a
completed scene to one that is not completed. -/
structure CompletionSticks (env : Env σ ω) : Prop where
  step : ∀ s b, env.sceneIsCompleted s = true → env.sceneIsCompleted (env.sceneStep s b) = true
  save : ∀ s w p d, env.sceneIsCompleted s = true →
    env.sceneIsCompleted (env.sceneSave s w p d).2.1 = true
  interact : ∀ s p, env.sceneIsCompleted s = true →
    env.sceneIsCompleted (env.sceneInteract s p).2 = true
  newStroke : ∀ s p c a, env.sceneIsCompleted s = true →
    env.sceneIsCompleted (env.sceneNewStroke s p c a).2 = true
  extendStroke : ∀ s k p, env.sceneIsCompleted s = true →
    env.sceneIsCompleted (env.sceneExtendStroke s k p) = true
  activateStroke : ∀ s k, env.sceneIsCompleted s = true →
    env.sceneIsCompleted (env.sceneActivateStroke s k).2 = true
  deleteStroke : ∀ s k, env.sceneIsCompleted s = true →
    env.sceneIsCompleted (env.sceneDeleteStroke s k).2 = true
  moveStroke : ∀ s k p, env.sceneIsCompleted s = true →
    env.sceneIsCompleted (env.sceneMoveStroke s k p) = true
  newJetStream : ∀ s p, env.sceneIsCompleted s = true →
    env.sceneIsCompleted (env.sceneNewJetStream s p).2 = true
  jetResize : ∀ s j p, env.sceneIsCompleted s = true →
    env.sceneIsCompleted (env.jetResize s j p) = true
  ropeify : ∀ s k, env.sceneIsCompleted s = true →
    env.sceneIsCompleted (env.strokeRopeify s k).2 = true

/-- The level index is the index of a level: `0 <= m_level < numLevels()`. -/
def validLevel (env : Env σ ω) (g : Game σ ω) : Bool :=
  decide (0 ≤ g.m_level) && decide (g.m_level < env.numLevels g.world)

/-! ## Reading the call log -/

/-- The creation of a completion dialog, `createNextLevelDialog(this)`. -/
def Call.isCompletionDialog : Call → Bool
  | .create WidgetKind.nextLevelDialog => true
  | _ => false

/-- The save of a demo, `m_scene.save(path, true)`. -/
def Call.isDemoSave : Call → Bool
  | .save _ true => true
  | _ => false

/-- The calls made from `g` to `g'`: what was appended to the log. -/
def newCalls (g g' : Game σ ω) : List Call := g'.trace.drop g.trace.length


/-- From `g` to `g'` the call log only grew, and every call added is in `S`. -/
def Calls (S : Call → Prop) (g g' : Game σ ω) : Prop :=
  g.trace <+: g'.trace ∧ ∀ c ∈ g'.trace.drop g.trace.length, S c

/-- The calls of `Scene::step`. -/
def Call.isStep : Call → Bool
  | .step _ => true
  | _ => false

/-- The calls `Game::gotoLevel` can make. -/
def Call.isLevelChange : Call → Bool
  | .reset _ => true
  | .start _ => true
  | .load _ => true
  | .protect _ => true
  | _ => false

/-- The calls of the completion block of `Game::onTick` when the level has
just been completed: the dialog is created and added, the demo is saved. -/
def Call.isCompletionReport : Call → Bool
  | .create WidgetKind.nextLevelDialog => true
  | .add _ => true
  | .ensurePath _ => true
  | .save _ true => true
  | _ => false

/-- The calls `Container::remove(w)`. -/
def Call.isRemove : Call → Bool
  | .remove _ => true
  | _ => false

/-- The calls `Container::onTick(tick)`. -/
def Call.isContainerOnTick : Call → Bool
  | .containerOnTick _ => true
  | _ => false

/-- The calls an event makes, when its handler returns. -/
def callsOf (env : Env σ ω) (g : Game σ ω) (ev : Event) : Option (List Call) :=
  (onEvent env g ev).map (fun r => newCalls g r.2)

/-- A `MOVEEND` event. -/
def Input.isMoveEnd : Input → Bool
  | .event ev => decide (ev.code = Code.MOVEEND)
  | .tick _ => false

/-- From `g` to `g'` the attempt goes on: edit mode, the reset countdown and
the completion flag are as before, a completed scene is still completed, and
no call made creates a completion dialog or saves a demo. -/
def KeepsAttempt (env : Env σ ω) (g g' : Game σ ω) : Prop :=
  g'.m_edit = g.m_edit ∧ g'.m_reset_countdown = g.m_reset_countdown ∧
  g'.m_isCompleted = g.m_isCompleted ∧
  (env.sceneIsCompleted g.m_scene = true → env.sceneIsCompleted g'.m_scene = true) ∧
  Calls (fun c => c.isCompletionDialog = false ∧ c.isDemoSave = false) g g'

/-- From `g` to `g'` the attempt goes on out of edit mode with no reset
pending: the flag is not lowered, and it is raised with exactly one
completion dialog and at most one demo save. -/
def AttemptStep (env : Env σ ω) (g g' : Game σ ω) : Prop :=
  g'.m_edit = false ∧ g'.m_reset_countdown ≤ 0 ∧
  (g'.m_isCompleted = true → env.sceneIsCompleted g'.m_scene = true) ∧
  (g.m_isCompleted = true → g'.m_isCompleted = true) ∧
  g.trace <+: g'.trace ∧
  (newCalls g g').countP Call.isCompletionDialog =
    (if g.m_isCompleted = false ∧ g'.m_isCompleted = true then 1 else 0) ∧
  (newCalls g g').countP Call.isDemoSave ≤ (newCalls g g').countP Call.isCompletionDialog

/-! ## A small concrete scene, to run the handlers on inputs -/

/-- A scene that keeps only what `Game` can observe: the activated strokes,
the next free handle and the completion flag. -/
structure ToyScene where
  strokes : List Stroke
  fresh : Nat
  completed : Bool
  deriving DecidableEq, Repr

/-- An environment over `ToyScene`: three levels, a level is won once two
strokes are active and the world is stepped unpaused, `reset` and `load`
clear the scene, every handle is fresh.  The outside state is the counter of
the widgets created so far. -/
def toyEnv : Env ToyScene Nat where
  REWIND_TICKS := 70
  ATTRIB_GROUND := 1
  ATTRIB_SLEEPING := 16
  ATTRIB_DECOR := 8
  ATTRIB_INTERACTIVE := 128
  sceneReset := fun s _ => { s with strokes := [], completed := false }
  sceneStart := fun s _ => s
  sceneLoad := fun s d =>
    if d = "" then (false, s) else (true, { s with strokes := [], completed := false })
  sceneLogSize := fun _ => 0
  sceneProtect := fun s _ => s
  sceneSave := fun s w _ _ => (true, s, w)
  sceneStep := fun s paused =>
    if paused then s else { s with completed := s.completed || decide (2 ≤ s.strokes.length) }
  sceneIsCompleted := fun s => s.completed
  sceneStrokes := fun s => s.strokes
  sceneInteract := fun s _ => (false, s)
  sceneNewStroke := fun s _ _ _ => (some s.fresh, { s with fresh := s.fresh + 1 })
  sceneExtendStroke := fun s _ _ => s
  sceneActivateStroke := fun s k => (true, { s with strokes := s.strokes ++ [k] })
  sceneDeleteStroke := fun s k =>
    match k with
    | some k => (decide (k ∈ s.strokes), { s with strokes := s.strokes.erase k })
    | none => (false, s)
  sceneStrokeAtPoint := fun s _ => s.strokes.head?
  sceneMoveStroke := fun s _ _ => s
  sceneNewJetStream := fun s _ => (some s.fresh, { s with fresh := s.fresh + 1 })
  jetResize := fun s _ _ => s
  strokeRopeify := fun s _ => ([s.fresh, s.fresh + 1], { s with fresh := s.fresh + 2 })
  strokeOrigin := fun _ _ => ⟨0, 0⟩
  statsReset := fun st t =>
    { st with startTime := t, endTime := 0, strokeCount := 0, pausedStrokes := 0, undoCount := 0 }
  numLevels := fun _ => 3
  levelData := fun _ l => if l = 2 then "" else "level"
  addPath := fun w _ => w
  findLevel := fun _ _ => -1
  demoPath := fun _ _ => "demo"
  demoName := fun _ _ => "demo/L.npd"
  osTicks := fun _ => 5000
  osExists := fun _ _ => false
  osEnsurePath := fun w _ => w
  userLevelFileName := fun f => f
  uiCreate := fun w _ => (w, w + 1)
  uiAdd := fun w _ => w
  uiRemove := fun w _ => w
  uiAnimateTo := fun w _ _ => w
  uiOnTick := fun w _ => ([], w)

/-- A game on level 1 of `toyEnv`, in play mode, nothing being drawn, with
the given scene. -/
def toyGame (sc : ToyScene) : Game ToyScene Nat where
  m_level := 1
  m_edit := false
  m_paused := false
  m_replaying := false
  m_colour := 2
  m_strokeFixed := false
  m_strokeSleep := false
  m_strokeDecor := false
  m_strokeRope := false
  m_interactiveDraw := false
  m_clickMode := .CLICK_MODE_DRAW_STROKE
  m_stats := ⟨0, 0, 0, 0, 0, 0, 0⟩
  m_scene := sc
  m_createStroke := none
  m_moveStroke := none
  m_createJetStream := none
  m_moveOffset := Vec2.zero
  m_pauseLabel := none
  m_editLabel := none
  m_completedDialog := none
  m_options := none
  m_clickModeLabel := ""
  m_eventMap := .GAME_MAP
  m_isCompleted := false
  m_left_button := 0
  m_right_button := 1
  m_reset_countdown := 0
  world := 2
  trace := []

/-- The game `toyGame` on an empty scene while the stroke with handle 0 is
being drawn from the point (3, 4). -/
def toyDrawing : Game ToyScene Nat :=
  { toyGame ⟨[], 1, false⟩ with
      m_createStroke := some 0
      trace := [Call.interact ⟨3, 4⟩, Call.newStroke [⟨3, 4⟩] 2 0] }

/-- The game `toyGame` with stroke 0 being drawn and the rope tool on. -/
def toyRoping : Game ToyScene Nat :=
  { toyGame ⟨[], 1, false⟩ with m_createStroke := some 0, m_strokeRope := true }

/-- Like `toyEnv`, but the scene refuses to activate any stroke (as for a
draft with too few points). -/
def toyEnvRefusing : Env ToyScene Nat :=
  { toyEnv with sceneActivateStroke := fun s _ => (false, s) }

/-- The game `toyGame` on a completed scene, in edit mode, with the
completion dialog (widget 2) showing and the completion flag set. -/
def toyEditingCompleted : Game ToyScene Nat :=
  { toyGame ⟨[0, 1], 2, true⟩ with
      m_edit := true
      m_isCompleted := true
      m_completedDialog := some 2
      world := 3 }

/-- Like `toyEnv`, but writing a level file fails. -/
def toyEnvReadOnly : Env ToyScene Nat :=
  { toyEnv with sceneSave := fun s w _ _ => (false, s, w) }

/-- A play of `toyEnv`: with two strokes active the first tick completes the
level; the player then enters edit mode, a tick passes, the player leaves
edit mode and another tick passes. -/
def toyEditRun : List Input :=
  [.tick 1, .event ⟨Code.EDIT, 0, 0⟩, .tick 2, .event ⟨Code.EDIT, 0, 0⟩, .tick 3]

/-- The completion flag after delivering `ins` to `g`. -/
def flagAfter (env : Env σ ω) (g : Game σ ω) (ins : List Input) : Option Bool :=
  (run env g ins).map (fun h => h.m_isCompleted)

/-- The calls made while delivering `ins` to `g`. -/
def callsDuring (env : Env σ ω) (g : Game σ ω) (ins : List Input) : Option (List Call) :=
  (run env g ins).map (fun h => newCalls g h)

/-- The game `toyGame` with two strokes active: the next unpaused tick
completes the level. -/
def toyNearlyDone : Game ToyScene Nat := toyGame ⟨[0, 1], 2, false⟩

/-- A play of `toyEnv` that stays out of edit mode: a tick, a pause, a tick,
the menu, a tick. -/
def toyQuietRun : List Input :=
  [.tick 1, .event ⟨Code.PAUSE, 0, 0⟩, .tick 2, .event ⟨Code.MENU, 0, 0⟩, .tick 3]

/-- The game after `toyQuietRun`. -/
def toyQuietEnd : Game ToyScene Nat := (run toyEnv toyNearlyDone toyQuietRun).getD toyNearlyDone

/-- Like `toyEnv`, but `start(true)` replays a log of two strokes, 7 and 8. -/
def toyEnvReplay : Env ToyScene Nat :=
  { toyEnv with sceneStart := fun s b => if b then { s with strokes := [7, 8] } else s }

/-- The game `toyNearlyDone` after a `REPLAY` event in `toyEnvReplay`. -/
def toyReplaying : Game ToyScene Nat :=
  ((onEvent toyEnvReplay toyNearlyDone ⟨Code.REPLAY, 1, 0⟩).map (fun r => r.2)).getD toyNearlyDone

/-- A toolkit base handler that ignores every event. -/
def toyBase : Nat → Event → Bool × Nat := fun w _ => (false, w)

/-- A tool dialog with its eight option buttons. -/
def toyToolDialog : ToolDialog := ⟨List.replicate 8 StockIcon.BLANK⟩

/-- The game `toyDrawing` after the rope option of the tool dialog was
clicked while stroke 0 is being drawn. -/
def toyRopeClicked : Game ToyScene Nat :=
  (ToolDialog.onEvent toyBase toyToolDialog toyDrawing ⟨Code.SELECT, 6, 0⟩).2.2

/-- The game `toyGame` on an empty scene with the ground tool and interactive
drawing on, nothing being drawn. -/
def toyGroundTool : Game ToyScene Nat :=
  { toyGame ⟨[], 1, false⟩ with m_strokeFixed := true, m_interactiveDraw := true }

/-- Like `toyEnv`, but a demo file exists for every level. -/
def toyEnvAllDemos : Env ToyScene Nat :=
  { toyEnv with osExists := fun _ _ => true }

/-- The game on the title level 0 of `toyEnv`, completed. -/
def toyTitleDone : Game ToyScene Nat :=
  { toyGame ⟨[0, 1], 2, true⟩ with m_level := 0, m_isCompleted := true }

/-- The game after the event `ev`, and `g` itself if the handler does not
return. -/
def after (env : Env σ ω) (g : Game σ ω) (ev : Event) : Game σ ω :=
  ((onEvent env g ev).map (fun r => r.2)).getD g

/-- The game `toyNearlyDone` after stroke 0 was grabbed at (3, 4). -/
def toyGrabbed : Game ToyScene Nat := after toyEnv toyNearlyDone ⟨Code.MOVEBEGIN, 3, 4⟩

/-! ## Lemmas: what each method leaves alone -/

section Frame

variable (env : Env σ ω) (g : Game σ ω)

@[simp] theorem gotoLevel_createStroke (level : Int) (replay : Bool) :
    (gotoLevel env g level replay).m_createStroke = g.m_createStroke := by
  unfold gotoLevel
  simp only [scStart, scReset, scLoad, scProtect]
  split_ifs <;> rfl

@[simp] theorem showMessage_createStroke (msg : String) :
    (showMessage env g msg).m_createStroke = g.m_createStroke := rfl

@[simp] theorem save_createStroke (file : Option String) :
    (save env g file).2.m_createStroke = g.m_createStroke := by
  unfold save
  dsimp only
  repeat' split
  all_goals rfl

@[simp] theorem saveDemo_createStroke :
    (saveDemo env g).m_createStroke = g.m_createStroke := by
  unfold saveDemo
  dsimp only
  repeat' split
  all_goals rfl

@[simp] theorem remove_createStroke (w : Option Widget) :
    (remove env g w).m_createStroke = g.m_createStroke := by
  unfold remove
  dsimp only
  repeat' split
  all_goals rfl

@[simp] theorem togglePause_createStroke :
    (togglePause env g).m_createStroke = g.m_createStroke := by
  unfold togglePause
  dsimp only
  repeat' split
  all_goals first | rfl | simp

@[simp] theorem edit_createStroke (doEdit : Bool) :
    (edit env g doEdit).m_createStroke = g.m_createStroke := by
  unfold edit
  dsimp only
  repeat' split
  all_goals first | rfl | simp

theorem foldl_clear_createStroke (ws : List (Option Widget)) (h : Game σ ω) :
    (ws.foldl (fun (h : Game σ ω) w =>
      if w = h.m_completedDialog then { h with m_completedDialog := none } else h) h).m_createStroke
      = h.m_createStroke := by
  induction ws generalizing h with
  | nil => rfl
  | cons w ws ih =>
    simp only [List.foldl_cons]
    rw [ih]
    split_ifs <;> rfl

@[simp] theorem containerOnTick_createStroke (tick : Int) :
    (containerOnTick env g tick).m_createStroke = g.m_createStroke := by
  unfold containerOnTick
  simp only [foldl_clear_createStroke]

@[simp] theorem tickCountdown_createStroke :
    (tickCountdown env g).m_createStroke = g.m_createStroke := by
  unfold tickCountdown
  dsimp only
  repeat' split
  all_goals first | rfl | simp

@[simp] theorem tickEditClear_createStroke :
    (tickEditClear env g).m_createStroke = g.m_createStroke := by
  unfold tickEditClear
  repeat' split
  all_goals first | rfl | simp

@[simp] theorem reportCompletion_createStroke :
    (reportCompletion env g).m_createStroke = g.m_createStroke := by
  unfold reportCompletion
  dsimp only
  repeat' split
  all_goals first | rfl | simp

@[simp] theorem tickCompletion_createStroke :
    (tickCompletion env g).m_createStroke = g.m_createStroke := by
  unfold tickCompletion
  dsimp only
  repeat' split
  all_goals first | rfl | simp

@[simp] theorem onTick_createStroke (tick : Int) :
    (onTick env g tick).m_createStroke = g.m_createStroke := by
  simp [onTick]

@[simp] theorem activateAll_createStroke (l : List Stroke) :
    (activateAll env g l).m_createStroke = g.m_createStroke := by
  induction l generalizing g with
  | nil => rfl
  | cons s rest ih => simp [activateAll, ih, scActivateStroke]

/-- What `onEvent` can do to the draft reference: leave it, clear it, or (in
the `DRAWBEGIN` case, when it was NULL) assign it. -/
theorem onEvent_createStroke (ev : Event) (u : Bool) (g' : Game σ ω)
    (h : onEvent env g ev = some (u, g')) :
    g'.m_createStroke = g.m_createStroke ∨ g'.m_createStroke = none ∨
      (ev.code = Code.DRAWBEGIN ∧ g.m_createStroke = none) := by
  unfold onEvent at h
  split at h
  all_goals try dsimp only at h
  all_goals repeat' split at h
  all_goals first
    | (injection h with h; injection h with h1 h2; subst h2; simp_all [setTool])
    | simp at h

theorem activateAll_trace (l : List Stroke) :
    (activateAll env g l).trace = g.trace ++ l.map Call.activateStroke := by
  induction l generalizing g with
  | nil => simp [activateAll]
  | cons s rest ih => simp [activateAll, ih]

@[simp] theorem activateAll_stats (l : List Stroke) :
    (activateAll env g l).m_stats = g.m_stats := by
  induction l generalizing g with
  | nil => rfl
  | cons s rest ih => simp [activateAll, ih]

/-- The fields `Game::gotoLevel` never writes. -/
theorem gotoLevel_frame (level : Int) (replay : Bool) :
    (gotoLevel env g level replay).m_edit = g.m_edit ∧
    (gotoLevel env g level replay).m_isCompleted = g.m_isCompleted ∧
    (gotoLevel env g level replay).m_completedDialog = g.m_completedDialog ∧
    (gotoLevel env g level replay).m_paused = g.m_paused ∧
    (gotoLevel env g level replay).world = g.world := by
  unfold gotoLevel
  dsimp only
  repeat' split
  all_goals simp

/-- The reset countdown leaves the edit and completion state alone. -/
theorem tickCountdown_frame :
    (tickCountdown env g).m_edit = g.m_edit ∧
    (tickCountdown env g).m_isCompleted = g.m_isCompleted ∧
    (tickCountdown env g).m_completedDialog = g.m_completedDialog := by
  unfold tickCountdown
  dsimp only
  split
  · split
    · have h := gotoLevel_frame env
        { g with m_reset_countdown := g.m_reset_countdown - 1 } g.m_level false
      exact ⟨h.1, h.2.1, h.2.2.1⟩
    · exact ⟨rfl, rfl, rfl⟩
  · exact ⟨rfl, rfl, rfl⟩

theorem tickCompletion_of_edit (h : g.m_edit = true) : tickCompletion env g = g := by
  simp [tickCompletion, h]

theorem foldl_clear_frame (ws : List (Option Widget)) (h : Game σ ω) :
    (ws.foldl (fun (h : Game σ ω) w =>
      if w = h.m_completedDialog then { h with m_completedDialog := none } else h) h).m_isCompleted
      = h.m_isCompleted ∧
    (ws.foldl (fun (h : Game σ ω) w =>
      if w = h.m_completedDialog then { h with m_completedDialog := none } else h) h).m_edit
      = h.m_edit ∧
    (h.m_completedDialog = none →
    (ws.foldl (fun (h : Game σ ω) w =>
      if w = h.m_completedDialog then { h with m_completedDialog := none } else h) h).m_completedDialog
      = none) := by
  induction ws generalizing h with
  | nil => simp
  | cons w ws ih =>
    simp only [List.foldl_cons]
    refine ⟨?_, ?_, ?_⟩
    · rw [(ih _).1]
      split_ifs <;> rfl
    · rw [(ih _).2.1]
      split_ifs <;> rfl
    · intro hn
      apply (ih _).2.2
      split_ifs <;> simp [hn]

theorem containerOnTick_frame (tick : Int) :
    (containerOnTick env g tick).m_isCompleted = g.m_isCompleted ∧
    (containerOnTick env g tick).m_edit = g.m_edit ∧
    (g.m_completedDialog = none → (containerOnTick env g tick).m_completedDialog = none) := by
  unfold containerOnTick
  exact foldl_clear_frame _ _

end Frame

/-! ## Lemmas: the calls each method makes -/

section CallLog

variable (env : Env σ ω) (g : Game σ ω)

theorem Calls.iff_exists (S : Call → Prop) (g1 g2 : Game σ ω) :
    Calls S g1 g2 ↔ ∃ r, g2.trace = g1.trace ++ r ∧ ∀ c ∈ r, S c := by
  constructor
  · rintro ⟨⟨r, e⟩, p⟩
    refine ⟨r, e.symm, ?_⟩
    rw [← e] at p
    simpa using p
  · rintro ⟨r, e, p⟩
    refine ⟨⟨r, e.symm⟩, ?_⟩
    rw [e]
    simpa using p

theorem Calls.refl (S : Call → Prop) : Calls S g g := by
  simp [Calls]

theorem Calls.trans {S : Call → Prop} {g1 g2 g3 : Game σ ω}
    (h12 : Calls S g1 g2) (h23 : Calls S g2 g3) : Calls S g1 g3 := by
  rw [Calls.iff_exists] at *
  obtain ⟨r1, e1, p1⟩ := h12
  obtain ⟨r2, e2, p2⟩ := h23
  refine ⟨r1 ++ r2, by rw [e2, e1, List.append_assoc], ?_⟩
  intro c hc
  rcases List.mem_append.mp hc with h | h
  · exact p1 c h
  · exact p2 c h

theorem Calls.mono {S T : Call → Prop} {g1 g2 : Game σ ω}
    (h : Calls S g1 g2) (hST : ∀ c, S c → T c) : Calls T g1 g2 :=
  ⟨h.1, fun c hc => hST c (h.2 c hc)⟩

theorem Calls.of_trace_eq {S : Call → Prop} {g1 h1 g2 : Game σ ω}
    (h : Calls S h1 g2) (e : g1.trace = h1.trace) : Calls S g1 g2 := by
  unfold Calls at *
  rw [e]
  exact h

theorem gotoLevel_calls (level : Int) (replay : Bool) :
    Calls (fun c => c.isLevelChange = true) g (gotoLevel env g level replay) := by
  unfold gotoLevel
  dsimp only
  repeat' split
  all_goals simp [Calls, Call.isLevelChange]

theorem remove_calls (w : Option Widget) :
    Calls (fun c => c.isRemove = true) g (remove env g w) := by
  unfold remove
  dsimp only
  repeat' split
  all_goals simp [Calls, Call.isRemove]

theorem saveDemo_calls :
    Calls (fun c => c.isCompletionReport = true) g (saveDemo env g) := by
  unfold saveDemo
  dsimp only
  repeat' split
  all_goals simp [Calls, Call.isCompletionReport]

theorem tickCountdown_calls :
    Calls (fun c => c.isLevelChange = true) g (tickCountdown env g) := by
  unfold tickCountdown
  dsimp only
  repeat' split
  · exact Calls.of_trace_eq (gotoLevel_calls env _ _ _) rfl
  · simp [Calls]
  · simp [Calls]

theorem tickEditClear_calls :
    Calls (fun c => c.isRemove = true) g (tickEditClear env g) := by
  unfold tickEditClear
  split
  · exact remove_calls env g _
  · simp [Calls]

theorem tickCompletion_calls :
    Calls (fun c => c.isCompletionReport = true ∨ c.isRemove = true) g
      (tickCompletion env g) := by
  unfold tickCompletion
  dsimp only
  split
  · split
    · unfold reportCompletion
      refine Calls.trans ?_ ((saveDemo_calls env _).mono (fun c h => Or.inl h))
      split <;> simp [Calls, Call.isCompletionReport]
    · split
      · unfold remove
        dsimp only
        split <;> simp [Calls, Call.isRemove]
      · simp [Calls]
  · simp [Calls]

theorem foldl_clear_trace (ws : List (Option Widget)) (h : Game σ ω) :
    (ws.foldl (fun (h : Game σ ω) w =>
      if w = h.m_completedDialog then { h with m_completedDialog := none } else h) h).trace
      = h.trace := by
  induction ws generalizing h with
  | nil => rfl
  | cons w ws ih =>
    simp only [List.foldl_cons]
    rw [ih]
    split_ifs <;> rfl

theorem containerOnTick_calls (tick : Int) :
    Calls (fun c => c.isContainerOnTick = true) g (containerOnTick env g tick) := by
  simp [Calls, containerOnTick, foldl_clear_trace, Call.isContainerOnTick]

/-- The calls `Game::onTick` makes after `m_scene.step`. -/
theorem onTick_tail_calls (tick : Int) :
    Calls (fun c => c.isLevelChange = true ∨ c.isRemove = true ∨
        c.isCompletionReport = true ∨ c.isContainerOnTick = true)
      (scStep env g (isPaused g)) (onTick env g tick) := by
  unfold onTick
  refine Calls.trans ((tickCountdown_calls env _).mono ?_) (Calls.trans
    ((tickEditClear_calls env _).mono ?_) (Calls.trans
    ((tickCompletion_calls env _).mono ?_) ((containerOnTick_calls env _ _).mono ?_)))
  all_goals
    intro c
    cases c <;> simp [Call.isLevelChange, Call.isRemove, Call.isCompletionReport,
      Call.isContainerOnTick]

end CallLog

/-! ## Claims -/

/-- C1: while a draft stroke is in creation, a `DRAWBEGIN` event returns
with the game unchanged (so neither `Scene.interact` nor `Scene.newStroke` is
called and the draft reference is kept); an event assigns a stroke to the
draft reference only if it is a `DRAWBEGIN` that found the reference NULL;
ticks and the control methods never touch the reference.  Hence at most one
stroke is in creation at any time. -/
theorem C1_single_draft (env : Env σ ω) (g : Game σ ω) :
    (∀ s x y, g.m_createStroke = some s →
        onEvent env g ⟨Code.DRAWBEGIN, x, y⟩ = some (true, g)) ∧
    (∀ ev u g', onEvent env g ev = some (u, g') →
        g'.m_createStroke ≠ none → g'.m_createStroke ≠ g.m_createStroke →
        ev.code = Code.DRAWBEGIN ∧ g.m_createStroke = none) ∧
    (∀ tick, (onTick env g tick).m_createStroke = g.m_createStroke) ∧
    (∀ level replay, (gotoLevel env g level replay).m_createStroke = g.m_createStroke) ∧
    (∀ file, (save env g file).2.m_createStroke = g.m_createStroke) ∧
    (∀ doEdit, (edit env g doEdit).m_createStroke = g.m_createStroke) ∧
    (togglePause env g).m_createStroke = g.m_createStroke := by
  refine ⟨?_, ?_, ?_, ?_, ?_, ?_, ?_⟩
  · intro s x y hs
    simp [onEvent, hs]
  · intro ev u g' h hne hch
    rcases onEvent_createStroke env g ev u g' h with h1 | h1 | h1
    · exact absurd h1 hch
    · exact absurd h1 hne
    · exact h1
  · exact onTick_createStroke env g
  · exact gotoLevel_createStroke env g
  · exact save_createStroke env g
  · exact edit_createStroke env g
  · exact togglePause_createStroke env g

/-- C1 at concrete inputs: a second `DRAWBEGIN` while stroke 0 is drawn, and
the `DRAWBEGIN` that started stroke 0. -/
theorem C1_single_draft_witness :
    onEvent toyEnv toyDrawing ⟨Code.DRAWBEGIN, 9, 9⟩ = some (true, toyDrawing) ∧
    ((⟨Code.DRAWBEGIN, 3, 4⟩ : Event).code = Code.DRAWBEGIN ∧
      (toyGame ⟨[], 0, false⟩).m_createStroke = none) :=
  ⟨(C1_single_draft toyEnv toyDrawing).1 0 9 9 rfl,
   (C1_single_draft toyEnv (toyGame ⟨[], 0, false⟩)).2.1 ⟨Code.DRAWBEGIN, 3, 4⟩ true toyDrawing
      rfl (by decide) (by decide)⟩

/-- C2: a `DRAWEND` while the draft `s` is in creation and rope mode is off
returns; it calls `Scene.activateStroke(s)`; if that returns false it then
calls `Scene.deleteStroke(s)` and leaves the statistics (so `strokeCount` and
`pausedStrokes`) as they were; if it returns true no `deleteStroke` follows;
in both cases no draft is in creation afterwards. -/
theorem C2_drawend_failed_activation (env : Env σ ω) (g : Game σ ω) (s : Stroke) (x y : Int)
    (hs : g.m_createStroke = some s) (hr : g.m_strokeRope = false) :
    ∃ g', onEvent env g ⟨Code.DRAWEND, x, y⟩ = some (true, g') ∧
      g'.m_createStroke = none ∧
      ((env.sceneActivateStroke g.m_scene s).1 = false →
        g'.trace = g.trace ++ [Call.activateStroke s, Call.deleteStroke (some s)] ∧
        g'.m_stats = g.m_stats) ∧
      ((env.sceneActivateStroke g.m_scene s).1 = true →
        g'.trace = g.trace ++ [Call.activateStroke s] ∧
        ∀ d, Call.deleteStroke d ∉ newCalls g g') := by
  cases ha : (env.sceneActivateStroke g.m_scene s).1
  · refine ⟨_, by simp [onEvent, hs, hr, ha]; rfl, ?_, ?_, ?_⟩ <;> simp
  · refine ⟨_, by simp [onEvent, hs, hr, ha]; rfl, ?_, ?_, ?_⟩
    · split_ifs <;> rfl
    · simp
    · intro _
      have ht : ∀ h : Game σ ω, h.trace = g.trace ++ [Call.activateStroke s] →
          ∀ d, Call.deleteStroke d ∉ newCalls g h := by
        intro h e d
        simp [newCalls, e]
      constructor
      · split_ifs <;> simp
      · apply ht
        split_ifs <;> simp

/-- C2 at a concrete input: the scene refuses the draft 0. -/
theorem C2_drawend_failed_activation_witness :
    ∃ g', onEvent toyEnvRefusing toyDrawing ⟨Code.DRAWEND, 5, 5⟩ = some (true, g') ∧
      g'.m_createStroke = none ∧
      ((toyEnvRefusing.sceneActivateStroke toyDrawing.m_scene 0).1 = false →
        g'.trace = toyDrawing.trace ++ [Call.activateStroke 0, Call.deleteStroke (some 0)] ∧
        g'.m_stats = toyDrawing.m_stats) ∧
      ((toyEnvRefusing.sceneActivateStroke toyDrawing.m_scene 0).1 = true →
        g'.trace = toyDrawing.trace ++ [Call.activateStroke 0] ∧
        ∀ d, Call.deleteStroke d ∉ newCalls toyDrawing g') :=
  C2_drawend_failed_activation toyEnvRefusing toyDrawing 0 5 5 rfl rfl

/-- C3: a `DRAWEND` in rope mode while the draft `s` is in creation returns;
after `s->ropeify(scene)` it calls `Scene.activateStroke` once for each stroke
returned, in the returned order, then `Scene.deleteStroke(s)` once, and ends
with no draft in creation.  The strokes the handler passes to
`activateStroke` are exactly the strokes `ropeify` returned; `ropeify`
returning new strokes (`ropeifyNew`), the handler does not pass the source
`s` to `activateStroke`. -/
theorem C3_drawend_rope (env : Env σ ω) (g : Game σ ω) (s : Stroke) (x y : Int)
    (hs : g.m_createStroke = some s) (hr : g.m_strokeRope = true) :
    ∃ g', onEvent env g ⟨Code.DRAWEND, x, y⟩ = some (true, g') ∧
      g'.m_createStroke = none ∧
      g'.trace = g.trace ++ Call.ropeify s ::
        ((env.strokeRopeify g.m_scene s).1.map Call.activateStroke ++
          [Call.deleteStroke (some s)]) ∧
      (∀ d, Call.deleteStroke d ∉ (env.strokeRopeify g.m_scene s).1.map Call.activateStroke) ∧
      (∀ t, Call.activateStroke t ∈ newCalls g g' ↔ t ∈ (env.strokeRopeify g.m_scene s).1) ∧
      (ropeifyNew env g.m_scene s = true → Call.activateStroke s ∉ newCalls g g') := by
  have key : ∃ g', onEvent env g ⟨Code.DRAWEND, x, y⟩ = some (true, g') ∧
      g'.m_createStroke = none ∧
      g'.trace = g.trace ++ Call.ropeify s ::
        ((env.strokeRopeify g.m_scene s).1.map Call.activateStroke ++
          [Call.deleteStroke (some s)]) := by
    refine ⟨_, by simp [onEvent, hs, hr]; rfl, ?_, ?_⟩
    · simp
    · simp only [scDeleteStroke, activateAll_trace, stRopeify, isPaused]
      split_ifs <;> simp
  obtain ⟨g', h1, h2, h3⟩ := key
  have hn : newCalls g g' = Call.ropeify s ::
      ((env.strokeRopeify g.m_scene s).1.map Call.activateStroke ++
        [Call.deleteStroke (some s)]) := by
    simp [newCalls, h3]
  refine ⟨g', h1, h2, h3, by simp, ?_, ?_⟩
  · intro t
    rw [hn]
    simp
  · intro hnew
    rw [hn]
    simpa [ropeifyNew] using hnew

/-- C3 at a concrete input: the rope drawn as stroke 0 becomes the new links
1 and 2, which are activated in this order before stroke 0 is deleted, and
stroke 0 is not activated. -/
theorem C3_drawend_rope_witness :
    ropeifyNew toyEnv toyRoping.m_scene 0 = true ∧
    ∃ g', onEvent toyEnv toyRoping ⟨Code.DRAWEND, 5, 5⟩ = some (true, g') ∧
      g'.m_createStroke = none ∧
      g'.trace = toyRoping.trace ++
        [Call.ropeify 0, Call.activateStroke 1, Call.activateStroke 2,
          Call.deleteStroke (some 0)] ∧
      Call.activateStroke 0 ∉ newCalls toyRoping g' :=
  ⟨rfl, (C3_drawend_rope toyEnv toyRoping 0 5 5 rfl rfl).imp
    (fun _ h => ⟨h.1, h.2.1, h.2.2.1, h.2.2.2.2.2 rfl⟩)⟩

/-- C5: a `DRAWBEGIN` at `(x, y)` while not replaying and with no draft in
creation returns; it calls `Scene.interact((x, y))` once; if that returns
true nothing else is called and the draft reference stays NULL; if it returns
false, `Scene.newStroke` is called once, after it, and its result becomes the
draft reference. -/
theorem C5_drawbegin_interact (env : Env σ ω) (g : Game σ ω) (x y : Int)
    (hrep : g.m_replaying = false) (hs : g.m_createStroke = none) :
    ∃ g', onEvent env g ⟨Code.DRAWBEGIN, x, y⟩ = some (true, g') ∧
      ((env.sceneInteract g.m_scene ⟨x, y⟩).1 = true →
        g'.trace = g.trace ++ [Call.interact ⟨x, y⟩] ∧ g'.m_createStroke = none) ∧
      ((env.sceneInteract g.m_scene ⟨x, y⟩).1 = false →
        g'.trace = g.trace ++ [Call.interact ⟨x, y⟩,
          Call.newStroke [⟨x, y⟩] g.m_colour (drawAttrib env g)] ∧
        g'.m_createStroke =
          (env.sceneNewStroke (env.sceneInteract g.m_scene ⟨x, y⟩).2 [⟨x, y⟩] g.m_colour
            (drawAttrib env g)).1) := by
  cases hi : (env.sceneInteract g.m_scene ⟨x, y⟩).1
  · refine ⟨_, by simp [onEvent, hs, hrep, hi, mousePoint]; rfl, ?_, ?_⟩
    · simp
    · simp [Path.and, drawAttrib]
  · refine ⟨_, by simp [onEvent, hs, hrep, hi, mousePoint]; rfl, ?_, ?_⟩
    · simp [hs]
    · simp

/-- C5 at a concrete input: the `DRAWBEGIN` that starts stroke 0. -/
theorem C5_drawbegin_interact_witness :
    ∃ g', onEvent toyEnv (toyGame ⟨[], 0, false⟩) ⟨Code.DRAWBEGIN, 3, 4⟩ = some (true, g') ∧
      ((toyEnv.sceneInteract (toyGame ⟨[], 0, false⟩).m_scene ⟨3, 4⟩).1 = true →
        g'.trace = (toyGame ⟨[], 0, false⟩).trace ++ [Call.interact ⟨3, 4⟩] ∧
        g'.m_createStroke = none) ∧
      ((toyEnv.sceneInteract (toyGame ⟨[], 0, false⟩).m_scene ⟨3, 4⟩).1 = false →
        g'.trace = (toyGame ⟨[], 0, false⟩).trace ++ [Call.interact ⟨3, 4⟩,
          Call.newStroke [⟨3, 4⟩] (toyGame ⟨[], 0, false⟩).m_colour
            (drawAttrib toyEnv (toyGame ⟨[], 0, false⟩))] ∧
        g'.m_createStroke =
          (toyEnv.sceneNewStroke (toyEnv.sceneInteract (toyGame ⟨[], 0, false⟩).m_scene ⟨3, 4⟩).2
            [⟨3, 4⟩] (toyGame ⟨[], 0, false⟩).m_colour
            (drawAttrib toyEnv (toyGame ⟨[], 0, false⟩))).1) :=
  C5_drawbegin_interact toyEnv (toyGame ⟨[], 0, false⟩) 3 4 rfl rfl

/-- C4: every `onTick` calls `Scene.step` exactly once: it is the first call
of the tick, its argument is the paused flag at the start of the tick, and no
later call of the tick is a `step` - whatever the pause, edit and completion
state and the reset countdown are (so also on the tick that reloads the
level). -/
theorem C4_step_once_per_tick (env : Env σ ω) (g : Game σ ω) (tick : Int) :
    ∃ rest, (onTick env g tick).trace = g.trace ++ Call.step g.m_paused :: rest ∧
      ∀ c ∈ rest, c.isStep = false := by
  obtain ⟨r, e, p⟩ := (Calls.iff_exists _ _ _).mp (onTick_tail_calls env g tick)
  refine ⟨r, ?_, ?_⟩
  · rw [e]
    simp [isPaused]
  · intro c hc
    have := p c hc
    cases c <;> simp_all [Call.isStep, Call.isLevelChange, Call.isRemove,
      Call.isCompletionReport, Call.isContainerOnTick]

/-- C7: on a tick in edit mode the completion flag is not set from false to
true; the tick neither creates a completion dialog nor saves a demo, whatever
`Scene.isCompleted()` returns; and if the flag was set with the completion
dialog `d` showing, `d` is removed, the dialog reference and the flag are
cleared. -/
theorem C7_edit_mode_tick (env : Env σ ω) (g : Game σ ω) (tick : Int)
    (he : g.m_edit = true) :
    (g.m_isCompleted = false → (onTick env g tick).m_isCompleted = false) ∧
    Calls (fun c => c ≠ Call.create WidgetKind.nextLevelDialog ∧ ∀ p, c ≠ Call.save p true)
      g (onTick env g tick) ∧
    (∀ d, g.m_isCompleted = true → g.m_completedDialog = some d →
      Call.remove (some d) ∈ (onTick env g tick).trace.drop g.trace.length ∧
      (onTick env g tick).m_isCompleted = false ∧
      (onTick env g tick).m_completedDialog = none) := by
  have hf := tickCountdown_frame env (scStep env g (isPaused g))
  have hc := tickCountdown_calls env (scStep env g (isPaused g))
  have hon : onTick env g tick = containerOnTick env
      (tickCompletion env (tickEditClear env (tickCountdown env (scStep env g (isPaused g))))) tick :=
    rfl
  generalize tickCountdown env (scStep env g (isPaused g)) = g1 at hf hc hon
  obtain ⟨h1, h2, h3⟩ := hf
  simp only [scStep] at h1 h2 h3
  have hedit : (tickEditClear env g1).m_edit = true := by
    unfold tickEditClear
    split
    · simp only [remove, containerRemove]
      split <;> simp [h1, he]
    · simp [h1, he]
  rw [tickCompletion_of_edit env _ hedit] at hon
  have hk := containerOnTick_frame env (tickEditClear env g1) tick
  have hcalls : Calls (fun c => c.isStep = true ∨ c.isLevelChange = true ∨ c.isRemove = true ∨
      c.isContainerOnTick = true) g (onTick env g tick) := by
    rw [hon]
    have h0 : Calls (fun c => c.isStep = true ∨ c.isLevelChange = true ∨ c.isRemove = true ∨
        c.isContainerOnTick = true) g (scStep env g (isPaused g)) := by
      simp [Calls, Call.isStep]
    refine Calls.trans h0 (Calls.trans (hc.mono ?_)
      (Calls.trans ((tickEditClear_calls env g1).mono ?_)
        ((containerOnTick_calls env _ tick).mono ?_)))
    all_goals
      intro c hc
      simp [hc]
  refine ⟨?_, ?_, ?_⟩
  · intro hfalse
    rw [hon, hk.1]
    simp [tickEditClear, h2, hfalse]
  · refine hcalls.mono ?_
    intro c hc
    cases c <;> simp_all [Call.isStep, Call.isLevelChange, Call.isRemove, Call.isContainerOnTick]
  · intro d hcomp hdlg
    have hclear : tickEditClear env g1 =
        { remove env g1 (some d) with m_completedDialog := none, m_isCompleted := false } := by
      simp [tickEditClear, h1, h2, h3, he, hcomp, hdlg]
    refine ⟨?_, ?_, ?_⟩
    · obtain ⟨r, e, -⟩ := (Calls.iff_exists _ _ _).mp hc
      simp only [scStep] at e
      rw [hon]
      have := (containerOnTick_calls env (tickEditClear env g1) tick).1
      obtain ⟨r2, e2⟩ := this
      rw [← e2, hclear]
      simp [remove, h3, hdlg, e]
    · rw [hon, hk.1, hclear]
    · rw [hon]
      apply hk.2.2
      rw [hclear]

/-- C7 at a concrete input: a tick in edit mode with the completion dialog
showing. -/
theorem C7_edit_mode_tick_witness :
    Call.remove (some 2) ∈
        (onTick toyEnv toyEditingCompleted 7).trace.drop toyEditingCompleted.trace.length ∧
      (onTick toyEnv toyEditingCompleted 7).m_isCompleted = false ∧
      (onTick toyEnv toyEditingCompleted 7).m_completedDialog = none :=
  (C7_edit_mode_tick toyEnv toyEditingCompleted 7 rfl).2.2 2 rfl rfl

/-- C8: `gotoLevel(level, false)` with `level` outside `[0, numLevels)` or
with a failing `Scene.load` makes no call but (when the level is in range)
the one `Scene.load`, so `Scene.start`, `Scene.reset` and `Scene.protect` are
not called; the level index and the statistics stay as they were. -/
theorem C8_gotoLevel_failure (env : Env σ ω) (g : Game σ ω) (level : Int)
    (hfail : ¬ (0 ≤ level ∧ level < env.numLevels g.world) ∨
      (env.sceneLoad g.m_scene (env.levelData g.world level)).1 = false) :
    (gotoLevel env g level false).m_level = g.m_level ∧
    (gotoLevel env g level false).m_stats = g.m_stats ∧
    (gotoLevel env g level false).trace =
      g.trace ++ (if 0 ≤ level ∧ level < env.numLevels g.world then [Call.load level] else []) ∧
    (¬ (0 ≤ level ∧ level < env.numLevels g.world) →
      (gotoLevel env g level false).trace = g.trace) ∧
    Calls (fun c => (∀ b, c ≠ Call.start b) ∧ (∀ b, c ≠ Call.reset b) ∧
      (∀ o, c ≠ Call.protect o)) g (gotoLevel env g level false) := by
  by_cases hr : 0 ≤ level ∧ level < env.numLevels g.world
  · have hl : (env.sceneLoad g.m_scene (env.levelData g.world level)).1 = false := by
      rcases hfail with h | h
      · exact absurd hr h
      · exact h
    simp [gotoLevel, hr, hl, Calls]
  · simp [gotoLevel, hr, Calls]

/-- C8 at concrete inputs: level 7 does not exist. -/
theorem C8_gotoLevel_failure_witness :
    (gotoLevel toyEnv toyDrawing 7 false).m_level = toyDrawing.m_level ∧
    (gotoLevel toyEnv toyDrawing 7 false).m_stats = toyDrawing.m_stats ∧
    (gotoLevel toyEnv toyDrawing 7 false).trace =
      toyDrawing.trace ++
        (if 0 ≤ (7 : Int) ∧ (7 : Int) < toyEnv.numLevels toyDrawing.world then [Call.load 7]
          else []) ∧
    (¬ (0 ≤ (7 : Int) ∧ (7 : Int) < toyEnv.numLevels toyDrawing.world) →
      (gotoLevel toyEnv toyDrawing 7 false).trace = toyDrawing.trace) ∧
    Calls (fun c => (∀ b, c ≠ Call.start b) ∧ (∀ b, c ≠ Call.reset b) ∧
      (∀ o, c ≠ Call.protect o)) toyDrawing (gotoLevel toyEnv toyDrawing 7 false) :=
  C8_gotoLevel_failure toyEnv toyDrawing 7 (Or.inl (by decide))

/-- C9: when `gotoLevel` succeeds `Scene.start` is called exactly once.  For
a replay the calls are `reset(NULL, true)` (keeping the log), then
`start(true)`, then `protect(0)` if in edit mode: no `load`, and the
statistics are not reset.  Otherwise (level in range, `load` succeeds) the
calls are `load`, then `start(b)` with `b` true exactly when the log of the
freshly loaded scene is non-empty, then `protect(0)` if in edit mode, and the
statistics are reset.  In both cases the level index becomes `level`. -/
theorem C9_gotoLevel_success (env : Env σ ω) (g : Game σ ω) (level : Int) (replay : Bool)
    (hok : replay = true ∨ ((0 ≤ level ∧ level < env.numLevels g.world) ∧
      (env.sceneLoad g.m_scene (env.levelData g.world level)).1 = true)) :
    (gotoLevel env g level replay).m_level = level ∧
    (replay = true →
      (gotoLevel env g level replay).trace =
        g.trace ++ [Call.reset true, Call.start true] ++
          (if g.m_edit then [Call.protect (some 0)] else []) ∧
      (gotoLevel env g level replay).m_stats = g.m_stats) ∧
    (replay = false →
      (gotoLevel env g level replay).trace =
        g.trace ++ [Call.load level, Call.start (decide (env.sceneLogSize
            (env.sceneLoad g.m_scene (env.levelData g.world level)).2 > 0))] ++
          (if g.m_edit then [Call.protect (some 0)] else []) ∧
      (gotoLevel env g level replay).m_stats = env.statsReset g.m_stats (env.osTicks g.world)) ∧
    ((gotoLevel env g level replay).trace.drop g.trace.length).countP
        (fun c => match c with
          | Call.start _ => true
          | _ => false) = 1 ∧
    Call.start (replay || decide (env.sceneLogSize
        (env.sceneLoad g.m_scene (env.levelData g.world level)).2 > 0)) ∈
      (gotoLevel env g level replay).trace.drop g.trace.length := by
  cases replay
  · have h : (0 ≤ level ∧ level < env.numLevels g.world) ∧
        (env.sceneLoad g.m_scene (env.levelData g.world level)).1 = true := by
      simpa using hok
    obtain ⟨hr, hl⟩ := h
    cases he : g.m_edit <;> simp [gotoLevel, hr, hl, he, List.countP_cons]
  · cases he : g.m_edit <;> simp [gotoLevel, he, List.countP_cons]

/-- C9 at a concrete input: level 0 loads. -/
theorem C9_gotoLevel_success_witness :
    (gotoLevel toyEnv toyDrawing 0 false).m_level = 0 ∧
    (gotoLevel toyEnv toyDrawing 0 false).m_stats =
      toyEnv.statsReset toyDrawing.m_stats (toyEnv.osTicks toyDrawing.world) :=
  ⟨(C9_gotoLevel_success toyEnv toyDrawing 0 false (Or.inr ⟨by decide, by decide⟩)).1,
   ((C9_gotoLevel_success toyEnv toyDrawing 0 false
      (Or.inr ⟨by decide, by decide⟩)).2.2.1 rfl).2⟩

/-- C10: `Game.save` returns what `Scene.save(path)` returns.  When that is
false the only call made is the `Scene.save` itself (no `addPath` on the
level list, no message box created or added) and the level index is kept.
When it is true the path is added to the level list, a message box is shown,
and the level index becomes `findLevel(path)` if that is `>= 0` and is kept
otherwise, so it changes only if the path is found. -/
theorem C10_save_result (env : Env σ ω) (g : Game σ ω) (file : Option String) :
    (save env g file).1 = (env.sceneSave g.m_scene g.world (savePath env file) false).1 ∧
    ((env.sceneSave g.m_scene g.world (savePath env file) false).1 = false →
      (save env g file).2.trace = g.trace ++ [Call.save (savePath env file) false] ∧
      (save env g file).2.m_level = g.m_level) ∧
    ((env.sceneSave g.m_scene g.world (savePath env file) false).1 = true →
      (∃ msg w, (save env g file).2.trace = g.trace ++
        [Call.save (savePath env file) false, Call.addPath (savePath env file),
         Call.create (WidgetKind.messageBox msg), Call.add w]) ∧
      (save env g file).2.m_level =
        (if env.findLevel (env.addPath
            (env.sceneSave g.m_scene g.world (savePath env file) false).2.2 (savePath env file))
            (savePath env file) ≥ 0
         then env.findLevel (env.addPath
            (env.sceneSave g.m_scene g.world (savePath env file) false).2.2 (savePath env file))
            (savePath env file)
         else g.m_level) ∧
      ((save env g file).2.m_level ≠ g.m_level →
        env.findLevel (env.addPath
            (env.sceneSave g.m_scene g.world (savePath env file) false).2.2 (savePath env file))
            (savePath env file) ≥ 0)) := by
  cases hs : (env.sceneSave g.m_scene g.world (savePath env file) false).1
  · simp [save, hs]
  · by_cases hl : env.findLevel (env.addPath
        (env.sceneSave g.m_scene g.world (savePath env file) false).2.2 (savePath env file))
        (savePath env file) ≥ 0
    · simp [save, hs, hl, showMessage]
    · simp [save, hs, hl, showMessage]

/-- C10 at a concrete input: saving to a read-only place. -/
theorem C10_save_result_witness :
    (save toyEnvReadOnly toyDrawing none).1 = false ∧
    (save toyEnvReadOnly toyDrawing none).2.trace =
      toyDrawing.trace ++ [Call.save (savePath toyEnvReadOnly none) false] ∧
    (save toyEnvReadOnly toyDrawing none).2.m_level = toyDrawing.m_level :=
  ⟨(C10_save_result toyEnvReadOnly toyDrawing none).1,
   (C10_save_result toyEnvReadOnly toyDrawing none).2.1 rfl⟩

theorem toyEnv_sticks : CompletionSticks toyEnv := by
  constructor <;> intros <;> simp_all [toyEnv] <;> (try split) <;> simp_all

section Attempt

variable (env : Env σ ω) (g : Game σ ω)

theorem activateAll_sticks (hst : CompletionSticks env) (l : List Stroke)
    (h : env.sceneIsCompleted g.m_scene = true) :
    env.sceneIsCompleted (activateAll env g l).m_scene = true := by
  induction l generalizing g with
  | nil => exact h
  | cons s rest ih =>
    simp only [activateAll]
    apply ih
    exact hst.activateStroke _ _ h

theorem activateAll_frame (l : List Stroke) :
    (activateAll env g l).m_edit = g.m_edit ∧
    (activateAll env g l).m_reset_countdown = g.m_reset_countdown ∧
    (activateAll env g l).m_isCompleted = g.m_isCompleted := by
  induction l generalizing g with
  | nil => exact ⟨rfl, rfl, rfl⟩
  | cons s rest ih =>
    simp only [activateAll]
    rw [(ih _).1, (ih _).2.1, (ih _).2.2]
    exact ⟨rfl, rfl, rfl⟩

set_option maxHeartbeats 4000000 in
theorem onEvent_keepsAttempt (hst : CompletionSticks env) (ev : Event) (u : Bool)
    (g' : Game σ ω) (h : onEvent env g ev = some (u, g'))
    (hl : (Input.event ev).keepsLevel = true) (hm : (Input.event ev).keepsMode = true)
    (he : g.m_edit = false) : KeepsAttempt env g g' := by
  unfold onEvent at h
  split at h
  all_goals try dsimp only at h
  all_goals repeat' split at h
  all_goals first
    | (simp_all [Input.keepsLevel, Input.keepsMode]; done)
    | (injection h with h; injection h with h1 h2; subst h2
       refine ⟨?_, ?_, ?_, ?_, ?_⟩
       all_goals first
         | rfl
         | (simp [remove, togglePause, save, showMessage, setTool, isPaused, edit, he,
              activateAll_frame, activateAll_trace, activateAll_sticks, Calls,
              Call.isCompletionDialog, Call.isDemoSave,
              hst.step, hst.save, hst.interact, hst.newStroke, hst.extendStroke,
              hst.activateStroke, hst.deleteStroke, hst.moveStroke, hst.newJetStream,
              hst.jetResize, hst.ropeify]; done)
         | (intro hsc
            exact hst.deleteStroke _ _ (activateAll_sticks env _ hst _ (hst.ropeify _ _ hsc)))
         | (simp [activateAll_trace, Calls, Call.isCompletionDialog, Call.isDemoSave]
            rintro a (⟨k, -, rfl⟩ | rfl) <;> simp [Call.isCompletionDialog, Call.isDemoSave])
         | (simp [remove, togglePause, save, showMessage, setTool, isPaused, edit, he,
              activateAll_frame, activateAll_trace, activateAll_sticks, Calls,
              Call.isCompletionDialog, Call.isDemoSave]
            repeat' split
            all_goals simp_all [Call.isCompletionDialog, Call.isDemoSave,
              hst.step, hst.save, hst.interact, hst.newStroke, hst.extendStroke,
              hst.activateStroke, hst.deleteStroke, hst.moveStroke, hst.newJetStream,
              hst.jetResize, hst.ropeify]))

theorem foldl_clear_eq (ws : List (Option Widget)) (h : Game σ ω) :
    ∃ d, ws.foldl (fun (h : Game σ ω) w =>
      if w = h.m_completedDialog then { h with m_completedDialog := none } else h) h
      = { h with m_completedDialog := d } := by
  induction ws generalizing h with
  | nil => exact ⟨h.m_completedDialog, rfl⟩
  | cons w ws ih =>
    simp only [List.foldl_cons]
    split_ifs
    · obtain ⟨d, hd⟩ := ih { h with m_completedDialog := none }
      exact ⟨d, hd⟩
    · exact ih h

theorem containerOnTick_eq (tick : Int) :
    ∃ d, containerOnTick env g tick =
      { g with world := (env.uiOnTick g.world tick).2,
               trace := g.trace ++ [Call.containerOnTick tick],
               m_completedDialog := d } := by
  unfold containerOnTick
  obtain ⟨d, hd⟩ := foldl_clear_eq (env.uiOnTick g.world tick).1
    { g with world := (env.uiOnTick g.world tick).2,
             trace := g.trace ++ [Call.containerOnTick tick] }
  exact ⟨d, hd⟩

theorem newCalls_append {g1 : Game σ ω} (g2 : Game σ ω) {g3 : Game σ ω} (h12 : g1.trace <+: g2.trace)
    (h23 : g2.trace <+: g3.trace) :
    g1.trace <+: g3.trace ∧ newCalls g1 g3 = newCalls g1 g2 ++ newCalls g2 g3 := by
  obtain ⟨r1, e1⟩ := h12
  obtain ⟨r2, e2⟩ := h23
  refine ⟨⟨r1 ++ r2, by rw [← e2, ← e1, List.append_assoc]⟩, ?_⟩
  simp only [newCalls, ← e2, ← e1, List.append_assoc, List.drop_left]
  rw [← List.append_assoc, List.drop_left]

theorem containerOnTick_fields (tick : Int) :
    (containerOnTick env g tick).m_edit = g.m_edit ∧
    (containerOnTick env g tick).m_reset_countdown = g.m_reset_countdown ∧
    (containerOnTick env g tick).m_isCompleted = g.m_isCompleted ∧
    (containerOnTick env g tick).m_scene = g.m_scene ∧
    (containerOnTick env g tick).trace = g.trace ++ [Call.containerOnTick tick] := by
  obtain ⟨d, hd⟩ := containerOnTick_eq env g tick
  rw [hd]
  exact ⟨rfl, rfl, rfl, rfl, rfl⟩

theorem saveDemo_fields (hst : CompletionSticks env) :
    (saveDemo env g).m_edit = g.m_edit ∧
    (saveDemo env g).m_reset_countdown = g.m_reset_countdown ∧
    (saveDemo env g).m_isCompleted = g.m_isCompleted ∧
    (env.sceneIsCompleted g.m_scene = true → env.sceneIsCompleted (saveDemo env g).m_scene = true) ∧
    g.trace <+: (saveDemo env g).trace ∧
    (newCalls g (saveDemo env g)).countP Call.isCompletionDialog = 0 ∧
    (newCalls g (saveDemo env g)).countP Call.isDemoSave ≤ 1 := by
  unfold saveDemo
  dsimp only
  split
  · refine ⟨rfl, rfl, rfl, fun h => hst.save _ _ _ _ h, ?_, ?_, ?_⟩ <;>
      simp [newCalls, Call.isCompletionDialog, Call.isDemoSave, List.countP_cons]
  · refine ⟨rfl, rfl, rfl, fun h => h, ?_, ?_, ?_⟩ <;> simp [newCalls]

theorem reportCompletion_fields (hst : CompletionSticks env) :
    (reportCompletion env g).m_edit = g.m_edit ∧
    (reportCompletion env g).m_reset_countdown = g.m_reset_countdown ∧
    (reportCompletion env g).m_isCompleted = g.m_isCompleted ∧
    (env.sceneIsCompleted g.m_scene = true →
      env.sceneIsCompleted (reportCompletion env g).m_scene = true) ∧
    g.trace <+: (reportCompletion env g).trace ∧
    (newCalls g (reportCompletion env g)).countP Call.isCompletionDialog = 1 ∧
    (newCalls g (reportCompletion env g)).countP Call.isDemoSave ≤ 1 := by
  unfold reportCompletion
  dsimp only
  generalize hX : (containerAdd env _ _ : Game σ ω) = X
  have hx : X.m_edit = g.m_edit ∧ X.m_reset_countdown = g.m_reset_countdown ∧
      X.m_isCompleted = g.m_isCompleted ∧ X.m_scene = g.m_scene ∧
      g.trace <+: X.trace ∧ (newCalls g X).countP Call.isCompletionDialog = 1 ∧
      (newCalls g X).countP Call.isDemoSave = 0 := by
    subst hX
    split <;> simp [newCalls, Call.isCompletionDialog, Call.isDemoSave, List.countP_cons]
  obtain ⟨x1, x2, x3, x4, x5, x6, x7⟩ := hx
  obtain ⟨s1, s2, s3, s4, s5, s6, s7⟩ := saveDemo_fields env X hst
  obtain ⟨a1, a2⟩ := newCalls_append X x5 s5
  refine ⟨by rw [s1, x1], by rw [s2, x2], by rw [s3, x3], ?_, a1, ?_, ?_⟩
  · intro h
    apply s4
    rw [x4]
    exact h
  · rw [a2, List.countP_append, x6, s6]
  · rw [a2, List.countP_append, x7]
    omega

/-- One tick of an attempt: out of edit mode and with no reset pending, the
flag is never lowered, and it is raised with exactly one completion dialog
and at most one demo save. -/
theorem onTick_attempt (hst : CompletionSticks env) (tick : Int)
    (he : g.m_edit = false) (hc : g.m_reset_countdown ≤ 0)
    (hinv : g.m_isCompleted = true → env.sceneIsCompleted g.m_scene = true) :
    (onTick env g tick).m_edit = false ∧
    (onTick env g tick).m_reset_countdown ≤ 0 ∧
    ((onTick env g tick).m_isCompleted = true →
      env.sceneIsCompleted (onTick env g tick).m_scene = true) ∧
    (g.m_isCompleted = true → (onTick env g tick).m_isCompleted = true) ∧
    g.trace <+: (onTick env g tick).trace ∧
    (newCalls g (onTick env g tick)).countP Call.isCompletionDialog =
      (if g.m_isCompleted = false ∧ (onTick env g tick).m_isCompleted = true then 1 else 0) ∧
    (newCalls g (onTick env g tick)).countP Call.isDemoSave ≤
      (newCalls g (onTick env g tick)).countP Call.isCompletionDialog := by
  have h1 : tickCountdown env (scStep env g (isPaused g)) = scStep env g (isPaused g) := by
    simp [tickCountdown, not_lt.mpr hc]
  have h2 : tickEditClear env (scStep env g (isPaused g)) = scStep env g (isPaused g) := by
    simp [tickEditClear, he]
  have hon : onTick env g tick =
      containerOnTick env (tickCompletion env (scStep env g (isPaused g))) tick := by
    unfold onTick
    rw [h1, h2]
  -- the completion block, on the stepped scene
  have hT : ∀ T : Game σ ω, T = tickCompletion env (scStep env g (isPaused g)) →
      T.m_edit = false ∧ T.m_reset_countdown ≤ 0 ∧
      (T.m_isCompleted = true → env.sceneIsCompleted T.m_scene = true) ∧
      (g.m_isCompleted = true → T.m_isCompleted = true) ∧
      g.trace <+: T.trace ∧
      (newCalls g T).countP Call.isCompletionDialog =
        (if g.m_isCompleted = false ∧ T.m_isCompleted = true then 1 else 0) ∧
      (newCalls g T).countP Call.isDemoSave ≤ (newCalls g T).countP Call.isCompletionDialog := by
    intro T hTdef
    cases hb : env.sceneIsCompleted (env.sceneStep g.m_scene g.m_paused) <;>
      cases hf : g.m_isCompleted
    · subst hTdef
      simp [tickCompletion, isPaused, hb, hf, he, hc, newCalls, Call.isCompletionDialog,
        Call.isDemoSave, List.countP_cons]
    · have := hst.step _ g.m_paused (hinv hf)
      rw [hb] at this
      exact absurd this (by simp)
    · have hTe : T = reportCompletion env
          { scStep env g (isPaused g) with m_isCompleted := true } := by
        subst hTdef
        simp [tickCompletion, isPaused, hb, hf, he]
      obtain ⟨r1, r2, r3, r4, r5, r6, r7⟩ := reportCompletion_fields env
        { scStep env g (isPaused g) with m_isCompleted := true } hst
      rw [← hTe] at r1 r2 r3 r4 r5 r6 r7
      have hp : g.trace <+: (scStep env g (isPaused g)).trace := by simp
      obtain ⟨a1, a2⟩ := newCalls_append { scStep env g (isPaused g) with m_isCompleted := true } hp r5
      refine ⟨by rw [r1]; exact he, by rw [r2]; exact hc, fun _ => r4 (by simpa [isPaused] using hb),
        fun _ => r3, a1, ?_, ?_⟩
      · rw [a2, List.countP_append, r6, if_pos ⟨rfl, r3⟩]
        simp [newCalls, List.countP_cons, Call.isCompletionDialog]
      · rw [a2, List.countP_append, List.countP_append, r6]
        have : (newCalls g ({ scStep env g (isPaused g) with m_isCompleted := true } : Game σ ω)).countP Call.isDemoSave = 0 := by
          simp [newCalls, List.countP_cons, Call.isDemoSave]
        omega
    · subst hTdef
      simp [tickCompletion, isPaused, hb, hf, he, hc, newCalls, Call.isCompletionDialog,
        Call.isDemoSave, List.countP_cons]
  obtain ⟨t1, t2, t3, t4, t5, t6, t7⟩ := hT _ rfl
  obtain ⟨c1, c2, c3, c4, c5⟩ :=
    containerOnTick_fields env (tickCompletion env (scStep env g (isPaused g))) tick
  have hp : (tickCompletion env (scStep env g (isPaused g))).trace <+:
      (containerOnTick env (tickCompletion env (scStep env g (isPaused g))) tick).trace := by
    rw [c5]
    simp
  obtain ⟨a1, a2⟩ := newCalls_append _ t5 hp
  have hlast : newCalls (tickCompletion env (scStep env g (isPaused g)))
      (containerOnTick env (tickCompletion env (scStep env g (isPaused g))) tick) =
      [Call.containerOnTick tick] := by
    unfold newCalls
    rw [c5, List.drop_left]
  rw [hon]
  refine ⟨by rw [c1]; exact t1, by rw [c2]; exact t2, ?_, ?_, a1, ?_, ?_⟩
  · rw [c3, c4]
    exact t3
  · rw [c3]
    exact t4
  · rw [a2, hlast, c3, List.countP_append, t6]
    simp [List.countP_cons, Call.isCompletionDialog]
  · rw [a2, hlast, List.countP_append, List.countP_append]
    simp only [List.countP_cons, List.countP_nil, Call.isCompletionDialog, Call.isDemoSave]
    simpa using t7

theorem attemptStep_trans {g1 g2 g3 : Game σ ω} (h12 : AttemptStep env g1 g2)
    (h23 : AttemptStep env g2 g3) : AttemptStep env g1 g3 := by
  obtain ⟨-, -, -, a4, a5, a6, a7⟩ := h12
  obtain ⟨b1, b2, b3, b4, b5, b6, b7⟩ := h23
  obtain ⟨c1, c2⟩ := newCalls_append g2 a5 b5
  refine ⟨b1, b2, b3, fun h => b4 (a4 h), c1, ?_, ?_⟩
  · rw [c2, List.countP_append, a6, b6]
    cases h1 : g1.m_isCompleted <;> cases h2 : g2.m_isCompleted <;>
      cases h3 : g3.m_isCompleted <;> simp_all
  · rw [c2, List.countP_append, List.countP_append]
    omega

theorem attemptStep_of_keeps {g1 g2 : Game σ ω} (h : KeepsAttempt env g1 g2)
    (he : g1.m_edit = false) (hc : g1.m_reset_countdown ≤ 0)
    (hinv : g1.m_isCompleted = true → env.sceneIsCompleted g1.m_scene = true) :
    AttemptStep env g1 g2 := by
  obtain ⟨k1, k2, k3, k4, k5, k6⟩ := h
  have hD : (newCalls g1 g2).countP Call.isCompletionDialog = 0 := by
    rw [List.countP_eq_zero]
    intro c hcm
    simp [(k6 c hcm).1]
  have hS : (newCalls g1 g2).countP Call.isDemoSave = 0 := by
    rw [List.countP_eq_zero]
    intro c hcm
    simp [(k6 c hcm).2]
  refine ⟨by rw [k1]; exact he, by rw [k2]; exact hc, ?_, ?_, k5, ?_, ?_⟩
  · rw [k3]
    exact fun h => k4 (hinv h)
  · rw [k3]
    exact fun h => h
  · rw [hD, k3]
    cases g1.m_isCompleted <;> simp
  · rw [hD, hS]

theorem deliver_attempt (hst : CompletionSticks env) (i : Input) (g1 : Game σ ω)
    (hd : deliver env g i = some g1)
    (hl : i.keepsLevel = true) (hm : i.keepsMode = true)
    (he : g.m_edit = false) (hc : g.m_reset_countdown ≤ 0)
    (hinv : g.m_isCompleted = true → env.sceneIsCompleted g.m_scene = true) :
    AttemptStep env g g1 := by
  cases i with
  | tick n =>
    simp only [deliver, Option.some.injEq] at hd
    subst hd
    exact onTick_attempt env g hst n he hc hinv
  | event ev =>
    simp only [deliver, Option.map_eq_some'] at hd
    obtain ⟨⟨u, g2⟩, hev, rfl⟩ := hd
    exact attemptStep_of_keeps env (onEvent_keepsAttempt env g hst ev u g2 hev hl hm he) he hc hinv

theorem run_attempt (hst : CompletionSticks env) (ins : List Input) :
    ∀ (g g' : Game σ ω), run env g ins = some g' →
      (∀ i ∈ ins, i.keepsLevel = true ∧ i.keepsMode = true) →
      g.m_edit = false → g.m_reset_countdown ≤ 0 →
      (g.m_isCompleted = true → env.sceneIsCompleted g.m_scene = true) →
      AttemptStep env g g' := by
  induction ins with
  | nil =>
    intro g g' hr _ he hc hinv
    simp only [run, Option.some.injEq] at hr
    subst hr
    refine ⟨he, hc, hinv, fun h => h, List.prefix_refl _, ?_, ?_⟩ <;> simp [newCalls]
  | cons i rest ih =>
    intro g g' hr hq he hc hinv
    simp only [run, Option.bind_eq_some] at hr
    obtain ⟨g1, hd, hr1⟩ := hr
    have hi := hq i (List.mem_cons_self _ _)
    have s1 := deliver_attempt env g hst i g1 hd hi.1 hi.2 he hc hinv
    have s2 := ih g1 g' hr1 (fun j hj => hq j (List.mem_cons_of_mem _ hj)) s1.1 s1.2.1 s1.2.2.1
    exact attemptStep_trans env s1 s2

end Attempt

/-- C6, as stated, fails: in `toyEnv` a completed scene stays completed under
every operation but `reset` and `load`, and `toyEditRun` contains no reset
and no level change; yet the flag, true after the first tick, is false after
the tick in edit mode, and over the whole run the completion dialog is
created twice and the demo is saved twice. -/
theorem C6_counterexample :
    CompletionSticks toyEnv ∧
    toyEditRun.all Input.keepsLevel = true ∧
    flagAfter toyEnv toyNearlyDone (toyEditRun.take 1) = some true ∧
    flagAfter toyEnv toyNearlyDone (toyEditRun.take 3) = some false ∧
    flagAfter toyEnv toyNearlyDone toyEditRun = some true ∧
    (callsDuring toyEnv toyNearlyDone toyEditRun).map
      (fun l => l.countP Call.isCompletionDialog) = some 2 ∧
    (callsDuring toyEnv toyNearlyDone toyEditRun).map
      (fun l => l.countP Call.isDemoSave) = some 2 :=
  ⟨toyEnv_sticks, by decide, by rfl, by rfl, by rfl, by rfl, by rfl⟩

/-- C6, amended: assume `Scene.isCompleted()` stays true once true, edit mode
off and no reset pending at the start, and a flag that, if set, agrees with
the scene.  Over every sequence of ticks and events with no reset, no level
change and no `EDIT` event the flag is never lowered, the completion dialog
is created once if the flag is raised during the sequence and not at all
otherwise, and the demo is saved at most as often as the dialog is created.
The assumptions hold again at the end of the sequence. -/
theorem C6_completed_once_outside_edit (env : Env σ ω) (hst : CompletionSticks env)
    (g g' : Game σ ω) (ins : List Input) (hrun : run env g ins = some g')
    (hins : ∀ i ∈ ins, i.keepsLevel = true ∧ i.keepsMode = true)
    (he : g.m_edit = false) (hc : g.m_reset_countdown ≤ 0)
    (hinv : g.m_isCompleted = true → env.sceneIsCompleted g.m_scene = true) :
    (g.m_isCompleted = true → g'.m_isCompleted = true) ∧
    (newCalls g g').countP Call.isCompletionDialog =
      (if g.m_isCompleted = false ∧ g'.m_isCompleted = true then 1 else 0) ∧
    (newCalls g g').countP Call.isDemoSave ≤ (newCalls g g').countP Call.isCompletionDialog ∧
    g'.m_edit = false ∧ g'.m_reset_countdown ≤ 0 ∧
    (g'.m_isCompleted = true → env.sceneIsCompleted g'.m_scene = true) := by
  obtain ⟨a1, a2, a3, a4, -, a6, a7⟩ := run_attempt env hst ins g g' hrun hins he hc hinv
  exact ⟨a4, a6, a7, a1, a2, a3⟩

/-- C6, amended, at a concrete input: the play `toyQuietRun`. -/
theorem C6_completed_once_outside_edit_witness :
    (toyNearlyDone.m_isCompleted = true → toyQuietEnd.m_isCompleted = true) ∧
    (newCalls toyNearlyDone toyQuietEnd).countP Call.isCompletionDialog =
      (if toyNearlyDone.m_isCompleted = false ∧ toyQuietEnd.m_isCompleted = true then 1 else 0) ∧
    (newCalls toyNearlyDone toyQuietEnd).countP Call.isDemoSave ≤
      (newCalls toyNearlyDone toyQuietEnd).countP Call.isCompletionDialog ∧
    toyQuietEnd.m_edit = false ∧ toyQuietEnd.m_reset_countdown ≤ 0 ∧
    (toyQuietEnd.m_isCompleted = true → toyEnv.sceneIsCompleted toyQuietEnd.m_scene = true) :=
  C6_completed_once_outside_edit toyEnv toyEnv_sticks toyNearlyDone toyQuietEnd toyQuietRun
    rfl (by decide) rfl (by decide) (by decide)

/-! ## Lemmas: the move target, the attribute mask, `size_t` -/

section MoveFrame

variable (env : Env σ ω) (g : Game σ ω)

@[simp] theorem gotoLevel_move (level : Int) (replay : Bool) :
    (gotoLevel env g level replay).m_moveStroke = g.m_moveStroke ∧
    (gotoLevel env g level replay).m_moveOffset = g.m_moveOffset := by
  unfold gotoLevel
  dsimp only
  repeat' split
  all_goals exact ⟨rfl, rfl⟩

@[simp] theorem save_move (file : Option String) :
    (save env g file).2.m_moveStroke = g.m_moveStroke ∧
    (save env g file).2.m_moveOffset = g.m_moveOffset := by
  unfold save
  dsimp only
  repeat' split
  all_goals exact ⟨rfl, rfl⟩

@[simp] theorem saveDemo_move :
    (saveDemo env g).m_moveStroke = g.m_moveStroke ∧
    (saveDemo env g).m_moveOffset = g.m_moveOffset := by
  unfold saveDemo
  dsimp only
  repeat' split
  all_goals exact ⟨rfl, rfl⟩

@[simp] theorem remove_move (w : Option Widget) :
    (remove env g w).m_moveStroke = g.m_moveStroke ∧
    (remove env g w).m_moveOffset = g.m_moveOffset := by
  unfold remove
  dsimp only
  repeat' split
  all_goals exact ⟨rfl, rfl⟩

@[simp] theorem togglePause_move :
    (togglePause env g).m_moveStroke = g.m_moveStroke ∧
    (togglePause env g).m_moveOffset = g.m_moveOffset := by
  unfold togglePause
  dsimp only
  repeat' split
  all_goals first | exact ⟨rfl, rfl⟩ | simp

@[simp] theorem edit_move (doEdit : Bool) :
    (edit env g doEdit).m_moveStroke = g.m_moveStroke ∧
    (edit env g doEdit).m_moveOffset = g.m_moveOffset := by
  unfold edit
  dsimp only
  repeat' split
  all_goals first | exact ⟨rfl, rfl⟩ | simp

@[simp] theorem containerOnTick_move (tick : Int) :
    (containerOnTick env g tick).m_moveStroke = g.m_moveStroke ∧
    (containerOnTick env g tick).m_moveOffset = g.m_moveOffset := by
  obtain ⟨d, hd⟩ := containerOnTick_eq env g tick
  rw [hd]
  exact ⟨rfl, rfl⟩

@[simp] theorem tickCountdown_move :
    (tickCountdown env g).m_moveStroke = g.m_moveStroke ∧
    (tickCountdown env g).m_moveOffset = g.m_moveOffset := by
  unfold tickCountdown
  dsimp only
  repeat' split
  all_goals first | exact ⟨rfl, rfl⟩ | simp

@[simp] theorem tickEditClear_move :
    (tickEditClear env g).m_moveStroke = g.m_moveStroke ∧
    (tickEditClear env g).m_moveOffset = g.m_moveOffset := by
  unfold tickEditClear
  repeat' split
  all_goals first | exact ⟨rfl, rfl⟩ | simp

@[simp] theorem reportCompletion_move :
    (reportCompletion env g).m_moveStroke = g.m_moveStroke ∧
    (reportCompletion env g).m_moveOffset = g.m_moveOffset := by
  unfold reportCompletion
  dsimp only
  repeat' split
  all_goals first | exact ⟨rfl, rfl⟩ | simp

@[simp] theorem tickCompletion_move :
    (tickCompletion env g).m_moveStroke = g.m_moveStroke ∧
    (tickCompletion env g).m_moveOffset = g.m_moveOffset := by
  unfold tickCompletion
  dsimp only
  repeat' split
  all_goals first | exact ⟨rfl, rfl⟩ | simp

@[simp] theorem onTick_move (tick : Int) :
    (onTick env g tick).m_moveStroke = g.m_moveStroke ∧
    (onTick env g tick).m_moveOffset = g.m_moveOffset := by
  simp [onTick]

@[simp] theorem activateAll_move (l : List Stroke) :
    (activateAll env g l).m_moveStroke = g.m_moveStroke ∧
    (activateAll env g l).m_moveOffset = g.m_moveOffset := by
  induction l generalizing g with
  | nil => exact ⟨rfl, rfl⟩
  | cons s rest ih => simp [activateAll, ih]

/-- An event other than `MOVEEND` keeps a move target and its offset. -/
theorem onEvent_move (ev : Event) (u : Bool) (g' : Game σ ω) (s : Stroke)
    (h : onEvent env g ev = some (u, g')) (hne : ev.code ≠ Code.MOVEEND)
    (hs : g.m_moveStroke = some s) :
    g'.m_moveStroke = some s ∧ g'.m_moveOffset = g.m_moveOffset := by
  unfold onEvent at h
  split at h
  all_goals try dsimp only at h
  all_goals repeat' split at h
  all_goals first
    | (injection h with h; injection h with h1 h2; subst h2; simp_all [setTool])
    | simp at h

theorem deliver_move (i : Input) (g1 : Game σ ω) (s : Stroke)
    (hd : deliver env g i = some g1) (hne : i.isMoveEnd = false)
    (hs : g.m_moveStroke = some s) :
    g1.m_moveStroke = some s ∧ g1.m_moveOffset = g.m_moveOffset := by
  cases i with
  | tick n =>
    simp only [deliver, Option.some.injEq] at hd
    subst hd
    simp [hs]
  | event ev =>
    simp only [deliver, Option.map_eq_some'] at hd
    obtain ⟨⟨u, g2⟩, hev, rfl⟩ := hd
    exact onEvent_move env g ev u g2 s hev (by simpa [Input.isMoveEnd] using hne) hs

theorem run_move (ins : List Input) : ∀ (g h : Game σ ω) (s : Stroke),
    run env g ins = some h → (∀ i ∈ ins, i.isMoveEnd = false) → g.m_moveStroke = some s →
    h.m_moveStroke = some s ∧ h.m_moveOffset = g.m_moveOffset := by
  induction ins with
  | nil =>
    intro g h s hr _ hs
    simp only [run, Option.some.injEq] at hr
    subst hr
    exact ⟨hs, rfl⟩
  | cons i rest ih =>
    intro g h s hr hq hs
    simp only [run, Option.bind_eq_some] at hr
    obtain ⟨g1, hd, hr1⟩ := hr
    have s1 := deliver_move env g i g1 s hd (hq i (List.mem_cons_self _ _)) hs
    have s2 := ih g1 h s hr1 (fun j hj => hq j (List.mem_cons_of_mem _ hj)) s1.1
    exact ⟨s2.1, by rw [s2.2, s1.2]⟩

theorem wrap32_move (a b c : Int) :
    wrap32 (c - wrap32 (a - b)) = wrap32 (b + (c - a)) := by
  unfold wrap32
  omega

theorem wrap32_exact (x : Int) (h : isInt32 x = true) : wrap32 x = x := by
  simp only [isInt32, Bool.and_eq_true, decide_eq_true_eq] at h
  unfold wrap32
  omega

end MoveFrame

theorem drawAttrib_bits (env : Env σ ω) (g : Game σ ω) (a b c d : Nat)
    (hG : env.ATTRIB_GROUND = 2 ^ a) (hS : env.ATTRIB_SLEEPING = 2 ^ b)
    (hD : env.ATTRIB_DECOR = 2 ^ c) (hI : env.ATTRIB_INTERACTIVE = 2 ^ d) (k : Nat) :
    (drawAttrib env g).testBit k =
      ((g.m_strokeFixed && decide (a = k)) || (g.m_strokeSleep && decide (b = k)) ||
       (g.m_strokeDecor && decide (c = k)) || (g.m_interactiveDraw && decide (d = k))) := by
  unfold drawAttrib
  cases g.m_strokeFixed <;> cases g.m_strokeSleep <;> cases g.m_strokeDecor <;>
    cases g.m_interactiveDraw <;>
    simp [hG, hS, hD, hI, Nat.testBit_or, Nat.testBit_two_pow]

theorem toSizeT_small (x : Int) (h : isInt32 x = true) :
    toSizeT x < 8 ↔ (0 ≤ x ∧ x ≤ 7) := by
  simp only [isInt32, Bool.and_eq_true, decide_eq_true_eq] at h
  unfold toSizeT
  omega

/-! ## Claims on gestures and tools -/

/-- C11, evaluated: after a `REPLAY` event the game is replaying, with the
replayed strokes 7 and 8 in the scene.  A `DELETE` at a stroke then calls
`Scene.deleteStroke(7)` and the stroke is gone; a `JETSTREAMBEGIN` calls
`Scene.newJetStream`.  `UNDO`, `DRAWBEGIN` and `MOVEBEGIN`, which test
`!m_replaying`, make no call. -/
theorem C11_replay_gestures_mutate :
    onEvent toyEnvReplay toyNearlyDone ⟨Code.REPLAY, 1, 0⟩ = some (true, toyReplaying) ∧
    toyReplaying.m_replaying = true ∧
    toyReplaying.m_scene.strokes = [7, 8] ∧
    callsOf toyEnvReplay toyReplaying ⟨Code.DELETE, 3, 4⟩ = some [Call.deleteStroke (some 7)] ∧
    (onEvent toyEnvReplay toyReplaying ⟨Code.DELETE, 3, 4⟩).map (fun r => r.2.m_scene.strokes) =
      some [8] ∧
    callsOf toyEnvReplay toyReplaying ⟨Code.JETSTREAMBEGIN, 3, 4⟩ =
      some [Call.newJetStream ⟨3, 4⟩] ∧
    callsOf toyEnvReplay toyReplaying ⟨Code.UNDO, 0, 0⟩ = some [] ∧
    callsOf toyEnvReplay toyReplaying ⟨Code.DRAWBEGIN, 3, 4⟩ = some [] ∧
    callsOf toyEnvReplay toyReplaying ⟨Code.MOVEBEGIN, 3, 4⟩ = some [] :=
  ⟨rfl, rfl, rfl, by rfl, by rfl, by rfl, by rfl, by rfl, by rfl⟩

/-- C12, as stated, fails: the draft 0 is created by `newStroke` with the
attribute mask 0; the rope option of the tool dialog is then clicked, which
changes neither the draft nor the call log; the `DRAWEND` that follows
ropeifies the draft, while without the click it activates it. -/
theorem C12_counterexample :
    onEvent toyEnv (toyGame ⟨[], 0, false⟩) ⟨Code.DRAWBEGIN, 3, 4⟩ = some (true, toyDrawing) ∧
    newCalls (toyGame ⟨[], 0, false⟩) toyDrawing =
      [Call.interact ⟨3, 4⟩, Call.newStroke [⟨3, 4⟩] 2 0] ∧
    ToolDialog.onEvent toyBase toyToolDialog toyDrawing ⟨Code.SELECT, 6, 0⟩ =
      (true, toyToolDialog.updateTicks toyRopeClicked, toyRopeClicked) ∧
    toyRopeClicked.m_createStroke = toyDrawing.m_createStroke ∧
    toyRopeClicked.trace = toyDrawing.trace ∧
    callsOf toyEnv toyDrawing ⟨Code.DRAWEND, 5, 5⟩ = some [Call.activateStroke 0] ∧
    callsOf toyEnv toyRopeClicked ⟨Code.DRAWEND, 5, 5⟩ =
      some [Call.ropeify 0, Call.activateStroke 1, Call.activateStroke 2,
        Call.deleteStroke (some 0)] :=
  ⟨rfl, by rfl, by rfl, rfl, rfl, by rfl, by rfl⟩

/-- C12, amended: a `DRAWEND` with the draft `s` in creation starts with
`s->ropeify(scene)` if the tool flag `m_strokeRope` is set when the event is
handled, and with `Scene.activateStroke(s)`, making no `ropeify` call at all,
if it is not; the attribute mask built at `DRAWBEGIN` does not depend on
`m_strokeRope`. -/
theorem C12_rope_choice_at_drawend (env : Env σ ω) (g : Game σ ω) (s : Stroke) (x y : Int)
    (hs : g.m_createStroke = some s) :
    ∃ g', onEvent env g ⟨Code.DRAWEND, x, y⟩ = some (true, g') ∧
      (g.m_strokeRope = true → (newCalls g g').head? = some (Call.ropeify s)) ∧
      (g.m_strokeRope = false → (newCalls g g').head? = some (Call.activateStroke s) ∧
        ∀ k, Call.ropeify k ∉ newCalls g g') ∧
      (∀ b, drawAttrib env { g with m_strokeRope := b } = drawAttrib env g) := by
  cases hr : g.m_strokeRope
  · cases ha : (env.sceneActivateStroke g.m_scene s).1
    · refine ⟨_, by simp [onEvent, hs, hr, ha]; rfl, ?_, ?_, ?_⟩
      · simp
      · simp [newCalls]
      · intro b; rfl
    · refine ⟨_, by simp [onEvent, hs, hr, ha]; rfl, ?_, ?_, ?_⟩
      · simp
      · have ht : ∀ h : Game σ ω, h.trace = g.trace ++ [Call.activateStroke s] →
            (newCalls g h).head? = some (Call.activateStroke s) ∧
            ∀ k, Call.ropeify k ∉ newCalls g h := by
          intro h e
          simp [newCalls, e]
        intro _
        apply ht
        split_ifs <;> simp
      · intro b; rfl
  · refine ⟨_, by simp [onEvent, hs, hr]; rfl, ?_, ?_, ?_⟩
    · intro _
      simp only [scDeleteStroke, activateAll_trace, stRopeify, isPaused, newCalls]
      split_ifs <;> simp
    · simp
    · intro b; rfl

/-- C12, amended, at a concrete input: the rope drawn as stroke 0. -/
theorem C12_rope_choice_at_drawend_witness :
    ∃ g', onEvent toyEnv toyRoping ⟨Code.DRAWEND, 5, 5⟩ = some (true, g') ∧
      (newCalls toyRoping g').head? = some (Call.ropeify 0) :=
  let ⟨g', h1, h2, _⟩ := C12_rope_choice_at_drawend toyEnv toyRoping 0 5 5 rfl
  ⟨g', h1, h2 rfl⟩

/-- C13: a `SELECT` event with an `int` index outside `0..7` (negative ones
included: the comparison with `ARRAY_SIZE(toolOpts)` is unsigned) reaches no
click handler: `ToolDialog::onEvent` is the call of `MenuDialog::onEvent`,
the dialog, the tool flags and the click mode are as before.  With an index
in `0..7` it runs the click handler of `toolOpts[ev.x]`, then `updateTicks`,
and returns true. -/
theorem C13_tool_select (base : ω → Event → Bool × ω) (d : ToolDialog) (g : Game σ ω)
    (ev : Event) (hcode : ev.code = Code.SELECT) (hint : isInt32 ev.x = true) :
    (¬ (0 ≤ ev.x ∧ ev.x ≤ 7) →
      ToolDialog.onEvent base d g ev = menuDialogOnEvent base d g ev ∧
      (ToolDialog.onEvent base d g ev).2.1 = d ∧
      (ToolDialog.onEvent base d g ev).2.2.m_strokeFixed = g.m_strokeFixed ∧
      (ToolDialog.onEvent base d g ev).2.2.m_strokeSleep = g.m_strokeSleep ∧
      (ToolDialog.onEvent base d g ev).2.2.m_strokeDecor = g.m_strokeDecor ∧
      (ToolDialog.onEvent base d g ev).2.2.m_strokeRope = g.m_strokeRope ∧
      (ToolDialog.onEvent base d g ev).2.2.m_interactiveDraw = g.m_interactiveDraw ∧
      (ToolDialog.onEvent base d g ev).2.2.m_clickMode = g.m_clickMode) ∧
    ((0 ≤ ev.x ∧ ev.x ≤ 7) →
      ∃ o, (toolOpts σ ω)[ev.x.toNat]? = some o ∧
        ToolDialog.onEvent base d g ev = (true, d.updateTicks (o.clicked g).2, (o.clicked g).2)) := by
  have hs := toSizeT_small ev.x hint
  constructor
  · intro hout
    have hge : ¬ toSizeT ev.x < ARRAY_SIZE_toolOpts σ ω := by
      simpa [ARRAY_SIZE_toolOpts, toolOpts] using fun h => hout (hs.mp h)
    have he : ToolDialog.onEvent base d g ev = menuDialogOnEvent base d g ev := by
      simp [ToolDialog.onEvent, hcode, hge]
    rw [he]
    exact ⟨rfl, rfl, rfl, rfl, rfl, rfl, rfl, rfl⟩
  · intro hin
    have hlt : toSizeT ev.x < ARRAY_SIZE_toolOpts σ ω := by
      simpa [ARRAY_SIZE_toolOpts, toolOpts] using hs.mpr hin
    obtain ⟨c, x, y⟩ := ev
    simp only at hin hcode hlt ⊢
    obtain ⟨h0, h7⟩ := hin
    interval_cases x <;> simp [ToolDialog.onEvent, hcode, hlt, toolOpts]

/-- C13 at concrete inputs: the index -1 and the index 6 (rope). -/
theorem C13_tool_select_witness :
    ToolDialog.onEvent toyBase toyToolDialog toyDrawing ⟨Code.SELECT, -1, 0⟩ =
      menuDialogOnEvent toyBase toyToolDialog toyDrawing ⟨Code.SELECT, -1, 0⟩ ∧
    ∃ o, (toolOpts ToyScene Nat)[(6 : Int).toNat]? = some o ∧
      ToolDialog.onEvent toyBase toyToolDialog toyDrawing ⟨Code.SELECT, 6, 0⟩ =
        (true, toyToolDialog.updateTicks (o.clicked toyDrawing).2, (o.clicked toyDrawing).2) :=
  ⟨((C13_tool_select toyBase toyToolDialog toyDrawing ⟨Code.SELECT, -1, 0⟩ rfl (by decide)).1
      (by decide)).1,
   (C13_tool_select toyBase toyToolDialog toyDrawing ⟨Code.SELECT, 6, 0⟩ rfl (by decide)).2
      (by decide)⟩

/-- C15: a `DRAWBEGIN` at `(x, y)` returns, and every `Scene.newStroke` it
calls has the path `[(x, y)]`, the colour `m_colour` and the mask
`drawAttrib`.  When the game is not replaying, holds no draft and
`Scene.interact` returns false, the handler calls `interact` and then
`newStroke` with these arguments and the draft is the stroke returned; in
every other case it calls no `newStroke` and keeps the draft reference.
With `ATTRIB_GROUND`, `ATTRIB_SLEEPING`, `ATTRIB_DECOR` and
`ATTRIB_INTERACTIVE` four different single bits, the bits GROUND, SLEEPING,
DECOR, INTERACTIVE of the mask equal `m_strokeFixed`, `m_strokeSleep`,
`m_strokeDecor`, `m_interactiveDraw`, every other bit being clear. -/
theorem C15_draft_arguments (env : Env σ ω) (g : Game σ ω) (x y : Int) (a b c d : Nat)
    (hG : env.ATTRIB_GROUND = 2 ^ a) (hS : env.ATTRIB_SLEEPING = 2 ^ b)
    (hD : env.ATTRIB_DECOR = 2 ^ c) (hI : env.ATTRIB_INTERACTIVE = 2 ^ d)
    (hab : a ≠ b) (hac : a ≠ c) (had : a ≠ d) (hbc : b ≠ c) (hbd : b ≠ d) (hcd : c ≠ d) :
    (∃ g', onEvent env g ⟨Code.DRAWBEGIN, x, y⟩ = some (true, g') ∧
      (∀ p col m, Call.newStroke p col m ∈ newCalls g g' →
        p = [⟨x, y⟩] ∧ col = g.m_colour ∧ m = drawAttrib env g) ∧
      (g.m_replaying = false → g.m_createStroke = none →
        (env.sceneInteract g.m_scene ⟨x, y⟩).1 = false →
        newCalls g g' = [Call.interact ⟨x, y⟩,
          Call.newStroke [⟨x, y⟩] g.m_colour (drawAttrib env g)] ∧
        g'.m_createStroke = (env.sceneNewStroke (env.sceneInteract g.m_scene ⟨x, y⟩).2
          [⟨x, y⟩] g.m_colour (drawAttrib env g)).1) ∧
      (¬ (g.m_replaying = false ∧ g.m_createStroke = none ∧
          (env.sceneInteract g.m_scene ⟨x, y⟩).1 = false) →
        (∀ p col m, Call.newStroke p col m ∉ newCalls g g') ∧
        g'.m_createStroke = g.m_createStroke)) ∧
    (drawAttrib env g).testBit a = g.m_strokeFixed ∧
    (drawAttrib env g).testBit b = g.m_strokeSleep ∧
    (drawAttrib env g).testBit c = g.m_strokeDecor ∧
    (drawAttrib env g).testBit d = g.m_interactiveDraw ∧
    (∀ k, k ≠ a → k ≠ b → k ≠ c → k ≠ d → (drawAttrib env g).testBit k = false) := by
  have hb := drawAttrib_bits env g a b c d hG hS hD hI
  refine ⟨?_, ?_, ?_, ?_, ?_, ?_⟩
  · by_cases hc : ¬ g.m_replaying = true ∧ g.m_createStroke = none
    · cases hi : (env.sceneInteract g.m_scene ⟨x, y⟩).1
      · refine ⟨_, by simp [onEvent, hc, hi, mousePoint]; rfl, ?_, ?_, ?_⟩
        · intro p col m
          simp [newCalls, Path.and, drawAttrib]
        · intro _ _ _
          simp [newCalls, Path.and, drawAttrib]
        · intro hn
          exact absurd ⟨by simpa using hc.1, hc.2, rfl⟩ hn
      · refine ⟨_, by simp [onEvent, hc, hi, mousePoint]; rfl, ?_, ?_, ?_⟩
        · intro p col m
          simp [newCalls]
        · intro _ _ h
          simp at h
        · intro _
          refine ⟨?_, ?_⟩
          · intro p col m
            simp [newCalls]
          · simp [hc.2]
    · refine ⟨g, by simp only [onEvent, hc, if_false], ?_, ?_, ?_⟩
      · intro p col m
        simp [newCalls]
      · intro h1 h2 _
        exact absurd ⟨by simp [h1], h2⟩ hc
      · intro _
        refine ⟨?_, rfl⟩
        intro p col m
        simp [newCalls]
  · rw [hb]; cases g.m_strokeFixed <;> simp [hab.symm, hac.symm, had.symm]
  · rw [hb]; cases g.m_strokeSleep <;> simp [hab, hbc.symm, hbd.symm]
  · rw [hb]; cases g.m_strokeDecor <;> simp [hac, hbc, hcd.symm]
  · rw [hb]; cases g.m_interactiveDraw <;> simp [had, hbd, hcd]
  · intro k ka kb kc kd
    rw [hb]
    simp [Ne.symm ka, Ne.symm kb, Ne.symm kc, Ne.symm kd]

/-- C15 at a concrete input: with the ground tool and interactive drawing on,
a `DRAWBEGIN` at (3, 4) creates the draft 1 by `newStroke` with the path
`[(3, 4)]`, the colour 2 and the mask 129, the bits 0 and 7 of `toyEnv`. -/
theorem C15_draft_arguments_witness :
    drawAttrib toyEnv toyGroundTool = 129 ∧
    (drawAttrib toyEnv toyGroundTool).testBit 0 = true ∧
    (drawAttrib toyEnv toyGroundTool).testBit 4 = false ∧
    ∃ g', onEvent toyEnv toyGroundTool ⟨Code.DRAWBEGIN, 3, 4⟩ = some (true, g') ∧
      newCalls toyGroundTool g' = [Call.interact ⟨3, 4⟩, Call.newStroke [⟨3, 4⟩] 2 129] ∧
      g'.m_createStroke = some 1 :=
  ⟨rfl,
   (C15_draft_arguments toyEnv toyGroundTool 3 4 0 4 3 7 rfl rfl rfl rfl
      (by decide) (by decide) (by decide) (by decide) (by decide) (by decide)).2.1,
   (C15_draft_arguments toyEnv toyGroundTool 3 4 0 4 3 7 rfl rfl rfl rfl
      (by decide) (by decide) (by decide) (by decide) (by decide) (by decide)).2.2.1,
   (C15_draft_arguments toyEnv toyGroundTool 3 4 0 4 3 7 rfl rfl rfl rfl
      (by decide) (by decide) (by decide) (by decide) (by decide) (by decide)).1.imp
     (fun _ h => ⟨h.1, (h.2.2.1 rfl rfl rfl).1, (h.2.2.1 rfl rfl rfl).2⟩)⟩

/-- C16: a `MOVEBEGIN` at `p` (not replaying, no move target) that finds the
stroke `s`, whose origin is then `o`, makes `s` the move target without a
call.  After any inputs that contain no `MOVEEND`, a `MOVEMORE` at `q` calls
`Scene.moveStroke(s, o + (q - p))` and nothing else; at `q = p` that is `o`.
A `MOVEMORE` without move target returns the game unchanged.  The value
requested is the same under wrap-around `int` arithmetic. -/
theorem C16_move_follows_grab (env : Env σ ω) (g : Game σ ω) (s : Stroke) (p : Vec2)
    (hrep : g.m_replaying = false) (hm : g.m_moveStroke = none)
    (hat : env.sceneStrokeAtPoint g.m_scene p = some s) :
    ∃ g1, onEvent env g ⟨Code.MOVEBEGIN, p.x, p.y⟩ = some (true, g1) ∧
      newCalls g g1 = [] ∧
      (∀ ins h, run env g1 ins = some h → (∀ i ∈ ins, i.isMoveEnd = false) →
        ∀ q : Vec2, ∃ h', onEvent env h ⟨Code.MOVEMORE, q.x, q.y⟩ = some (true, h') ∧
          newCalls h h' =
            [Call.moveStroke s (Vec2.add (env.strokeOrigin g.m_scene s) (Vec2.sub q p))]) ∧
      Vec2.add (env.strokeOrigin g.m_scene s) (Vec2.sub p p) = env.strokeOrigin g.m_scene s ∧
      (∀ (h : Game σ ω) (q : Vec2), h.m_moveStroke = none →
        onEvent env h ⟨Code.MOVEMORE, q.x, q.y⟩ = some (true, h)) ∧
      (∀ q : Vec2,
        wrap32 (q.x - wrap32 (p.x - (env.strokeOrigin g.m_scene s).x)) =
          wrap32 ((env.strokeOrigin g.m_scene s).x + (q.x - p.x)) ∧
        wrap32 (q.y - wrap32 (p.y - (env.strokeOrigin g.m_scene s).y)) =
          wrap32 ((env.strokeOrigin g.m_scene s).y + (q.y - p.y))) := by
  refine ⟨_, by simp [onEvent, hrep, hm, hat, mousePoint]; rfl, ?_, ?_, ?_, ?_, ?_⟩
  · simp [newCalls]
  · intro ins h hr hq q
    obtain ⟨h1, h2⟩ := run_move env ins _ h s hr hq rfl
    simp only at h2
    refine ⟨_, by simp [onEvent, h1, mousePoint]; rfl, ?_⟩
    simp [newCalls, h2, Vec2.add, Vec2.sub]
    constructor <;> omega
  · simp [Vec2.add, Vec2.sub]
  · intro h q hn
    simp [onEvent, hn]
  · intro q
    exact ⟨wrap32_move _ _ _, wrap32_move _ _ _⟩

/-- C16 at a concrete input: stroke 0 grabbed at (3, 4). -/
theorem C16_move_follows_grab_witness :
    ∃ g1, onEvent toyEnv toyNearlyDone ⟨Code.MOVEBEGIN, 3, 4⟩ = some (true, g1) ∧
      newCalls toyNearlyDone g1 = [] :=
  let ⟨g1, h1, h2, _⟩ := C16_move_follows_grab toyEnv toyNearlyDone 0 ⟨3, 4⟩ rfl rfl rfl
  ⟨g1, h1, h2⟩

/-- C17, evaluated: with no jet stream held (`m_createJetStream` NULL) a
`JETSTREAMMORE` calls `resize` through the NULL pointer: the handler does not
return.  The sibling cases `DRAWMORE` and `MOVEMORE` test their pointer and
return with the game unchanged. -/
theorem C17_jetstream_more_null :
    onEvent toyEnv (toyGame ⟨[], 0, false⟩) ⟨Code.JETSTREAMMORE, 3, 4⟩ = none ∧
    (toyGame ⟨[], 0, false⟩).m_createJetStream = none ∧
    onEvent toyEnv (toyGame ⟨[], 0, false⟩) ⟨Code.DRAWMORE, 3, 4⟩ =
      some (true, toyGame ⟨[], 0, false⟩) ∧
    onEvent toyEnv (toyGame ⟨[], 0, false⟩) ⟨Code.MOVEMORE, 3, 4⟩ =
      some (true, toyGame ⟨[], 0, false⟩) :=
  ⟨rfl, rfl, rfl, rfl⟩

/-- C18: an `UNDO` while replaying returns the game unchanged.  While not
replaying: with a draft `s` it calls `deleteStroke(s)` only, clears the draft
reference and keeps the statistics; without draft and with `strokes()` empty
it returns the game unchanged; without draft and with last stroke `s` it
calls `deleteStroke(s)` only, and `undoCount` grows by one exactly when that
call returns true. -/
theorem C18_undo (env : Env σ ω) (g : Game σ ω) (x y : Int) :
    (g.m_replaying = true → onEvent env g ⟨Code.UNDO, x, y⟩ = some (true, g)) ∧
    (g.m_replaying = false → ∀ s, g.m_createStroke = some s →
      ∃ g', onEvent env g ⟨Code.UNDO, x, y⟩ = some (true, g') ∧
        newCalls g g' = [Call.deleteStroke (some s)] ∧
        g'.m_createStroke = none ∧ g'.m_stats = g.m_stats) ∧
    (g.m_replaying = false → g.m_createStroke = none → env.sceneStrokes g.m_scene = [] →
      onEvent env g ⟨Code.UNDO, x, y⟩ = some (true, g)) ∧
    (g.m_replaying = false → g.m_createStroke = none →
      ∀ s, (env.sceneStrokes g.m_scene).getLast? = some s →
      ∃ g', onEvent env g ⟨Code.UNDO, x, y⟩ = some (true, g') ∧
        newCalls g g' = [Call.deleteStroke (some s)] ∧
        g'.m_createStroke = none ∧
        g'.m_stats.undoCount = g.m_stats.undoCount +
          (if (env.sceneDeleteStroke g.m_scene (some s)).1 = true then 1 else 0)) := by
  refine ⟨?_, ?_, ?_, ?_⟩
  · intro hr
    simp [onEvent, hr]
  · intro hr s hs
    refine ⟨_, by simp [onEvent, hr, hs]; rfl, ?_, ?_, ?_⟩ <;> simp [newCalls]
  · intro hr hs he
    simp [onEvent, hr, hs, he]
  · intro hr hs s hl
    have hne : (env.sceneStrokes g.m_scene) ≠ [] := by
      intro h
      simp [h] at hl
    cases hd : (env.sceneDeleteStroke g.m_scene (some s)).1
    · refine ⟨_, by simp [onEvent, hr, hs, hne, hl, hd]; rfl, ?_, ?_, ?_⟩ <;> simp [newCalls, hs]
    · refine ⟨_, by simp [onEvent, hr, hs, hne, hl, hd]; rfl, ?_, ?_, ?_⟩ <;> simp [newCalls, hs]

/-- C18 at a concrete input: undoing stroke 1 of the strokes 0, 1. -/
theorem C18_undo_witness :
    ∃ g', onEvent toyEnv toyNearlyDone ⟨Code.UNDO, 0, 0⟩ = some (true, g') ∧
      newCalls toyNearlyDone g' = [Call.deleteStroke (some 1)] :=
  let ⟨g', h1, h2, _⟩ := (C18_undo toyEnv toyNearlyDone 0 0).2.2.2 rfl rfl 1 rfl
  ⟨g', h1, h2⟩

/-! ## Lemmas: `Rect` -/

theorem Min_le_left (a b : Int) : Min a b ≤ a := by unfold Min; split <;> omega
theorem Min_le_right (a b : Int) : Min a b ≤ b := by unfold Min; split <;> omega
theorem Min_eq_or (a b : Int) : Min a b = a ∨ Min a b = b := by unfold Min; split <;> simp
theorem le_Max_left (a b : Int) : a ≤ Max a b := by unfold Max; split <;> omega
theorem le_Max_right (a b : Int) : b ≤ Max a b := by unfold Max; split <;> omega
theorem Max_eq_or (a b : Int) : Max a b = a ∨ Max a b = b := by unfold Max; split <;> simp

theorem expand_keeps (r : Rect) (v p : Vec2) (h : r.contains p = true) :
    (r.expand v).contains p = true := by
  simp only [Rect.contains, Rect.expand, Vec2.Min, Vec2.Max, Bool.and_eq_true, decide_eq_true_eq] at *
  have := Min_le_left r.tl.x v.x
  have := Min_le_left r.tl.y v.y
  have := le_Max_left r.br.x v.x
  have := le_Max_left r.br.y v.y
  omega

theorem expand_has (r : Rect) (v : Vec2) : (r.expand v).contains v = true := by
  simp only [Rect.contains, Rect.expand, Vec2.Min, Vec2.Max, Bool.and_eq_true, decide_eq_true_eq]
  have := Min_le_right r.tl.x v.x
  have := Min_le_right r.tl.y v.y
  have := le_Max_right r.br.x v.x
  have := le_Max_right r.br.y v.y
  have := Min_le_left r.tl.x v.x
  have := Min_le_left r.tl.y v.y
  have := le_Max_left r.br.x v.x
  have := le_Max_left r.br.y v.y
  omega

theorem tight_expand (r : Rect) (l : List Vec2) (v : Vec2) (h : Tight r l) :
    Tight (r.expand v) (l ++ [v]) := by
  obtain ⟨hc, ⟨a, ha, ea⟩, ⟨b, hb, eb⟩, ⟨c, hcm, ec⟩, ⟨d, hd, ed⟩⟩ := h
  refine ⟨?_, ?_, ?_, ?_, ?_⟩
  · intro q hq
    rcases List.mem_append.mp hq with hq | hq
    · exact expand_keeps r v q (hc q hq)
    · simp only [List.mem_singleton] at hq
      subst hq
      exact expand_has r q
  · rcases Min_eq_or r.tl.x v.x with e | e
    · exact ⟨a, List.mem_append_left _ ha, by simp [Rect.expand, Vec2.Min, e, ea]⟩
    · exact ⟨v, by simp, by simp [Rect.expand, Vec2.Min, e]⟩
  · rcases Min_eq_or r.tl.y v.y with e | e
    · exact ⟨b, List.mem_append_left _ hb, by simp [Rect.expand, Vec2.Min, e, eb]⟩
    · exact ⟨v, by simp, by simp [Rect.expand, Vec2.Min, e]⟩
  · rcases Max_eq_or r.br.x v.x with e | e
    · exact ⟨c, List.mem_append_left _ hcm, by simp [Rect.expand, Vec2.Max, e, ec]⟩
    · exact ⟨v, by simp, by simp [Rect.expand, Vec2.Max, e]⟩
  · rcases Max_eq_or r.br.y v.y with e | e
    · exact ⟨d, List.mem_append_left _ hd, by simp [Rect.expand, Vec2.Max, e, ed]⟩
    · exact ⟨v, by simp, by simp [Rect.expand, Vec2.Max, e]⟩

theorem tight_foldl (ps : List Vec2) : ∀ (r : Rect) (l : List Vec2), Tight r l →
    Tight (ps.foldl Rect.expand r) (l ++ ps) := by
  induction ps with
  | nil => intro r l h; simpa using h
  | cons v rest ih =>
    intro r l h
    have := ih (r.expand v) (l ++ [v]) (tight_expand r l v h)
    simpa using this

/-! ## Claims on `Rect` -/

/-- C19: for the points `p :: ps`, folding `Rect.expand` over `ps` from the
degenerate rect at `p` gives the tight bounding box: it contains every point,
`tl` is a lower and `br` an upper bound in each coordinate, and each of the
four bounds is the coordinate of some point of the list.  And `expand` never
removes a point a rect contained. -/
theorem C19_bbox_tight (p : Vec2) (ps : List Vec2) :
    (∀ q ∈ p :: ps, (bboxOf p ps).contains q = true) ∧
    (∀ q ∈ p :: ps, (bboxOf p ps).tl.x ≤ q.x ∧ (bboxOf p ps).tl.y ≤ q.y ∧
      q.x ≤ (bboxOf p ps).br.x ∧ q.y ≤ (bboxOf p ps).br.y) ∧
    (∃ q ∈ p :: ps, q.x = (bboxOf p ps).tl.x) ∧ (∃ q ∈ p :: ps, q.y = (bboxOf p ps).tl.y) ∧
    (∃ q ∈ p :: ps, q.x = (bboxOf p ps).br.x) ∧ (∃ q ∈ p :: ps, q.y = (bboxOf p ps).br.y) ∧
    (∀ (r : Rect) (v q : Vec2), r.contains q = true → (r.expand v).contains q = true) := by
  have h0 : Tight ⟨p, p⟩ [p] := by
    refine ⟨?_, ⟨p, by simp, rfl⟩, ⟨p, by simp, rfl⟩, ⟨p, by simp, rfl⟩, ⟨p, by simp, rfl⟩⟩
    intro q hq
    simp only [List.mem_singleton] at hq
    subst hq
    simp [Rect.contains]
  have h := tight_foldl ps ⟨p, p⟩ [p] h0
  simp only [List.singleton_append] at h
  obtain ⟨h1, h2, h3, h4, h5⟩ := h
  refine ⟨h1, ?_, h2, h3, h4, h5, expand_keeps⟩
  intro q hq
  have := h1 q hq
  simp only [Rect.contains, Bool.and_eq_true, decide_eq_true_eq] at this
  unfold bboxOf
  omega

/-- C20: for ordered rects `intersects` holds exactly when some integer point
is contained in both; `intersects` is symmetric; and a rect that contains
another one intersects it. -/
theorem C20_intersects_overlap (a b : Rect) :
    (a.ordered = true → b.ordered = true →
      (a.intersects b = true ↔ ∃ p : Vec2, a.contains p = true ∧ b.contains p = true)) ∧
    a.intersects b = b.intersects a ∧
    (a.containsRect b = true → a.intersects b = true) := by
  refine ⟨?_, ?_, ?_⟩
  · intro ha hb
    simp only [Rect.intersects, Rect.contains, Rect.ordered, Bool.and_eq_true, decide_eq_true_eq] at *
    constructor
    · intro h
      refine ⟨⟨max a.tl.x b.tl.x, max a.tl.y b.tl.y⟩, ?_⟩
      simp only
      omega
    · rintro ⟨p, hp1, hp2⟩
      omega
  · simp only [Rect.intersects]
    rw [Bool.eq_iff_iff]
    simp only [Bool.and_eq_true, decide_eq_true_eq]
    constructor <;> intro h <;> omega
  · simp only [Rect.intersects, Rect.containsRect, Rect.contains, Bool.and_eq_true, decide_eq_true_eq]
    intro h
    omega

/-- C20 at concrete rects: two rects that share the point (2, 2). -/
theorem C20_intersects_overlap_witness :
    ((⟨⟨0, 0⟩, ⟨2, 2⟩⟩ : Rect).intersects ⟨⟨2, 2⟩, ⟨5, 5⟩⟩ = true ↔
      ∃ p : Vec2, (⟨⟨0, 0⟩, ⟨2, 2⟩⟩ : Rect).contains p = true ∧
        (⟨⟨2, 2⟩, ⟨5, 5⟩⟩ : Rect).contains p = true) ∧
    (⟨⟨0, 0⟩, ⟨9, 9⟩⟩ : Rect).intersects ⟨⟨2, 2⟩, ⟨5, 5⟩⟩ = true :=
  ⟨(C20_intersects_overlap ⟨⟨0, 0⟩, ⟨2, 2⟩⟩ ⟨⟨2, 2⟩, ⟨5, 5⟩⟩).1 (by decide) (by decide),
   (C20_intersects_overlap ⟨⟨0, 0⟩, ⟨9, 9⟩⟩ ⟨⟨2, 2⟩, ⟨5, 5⟩⟩).2.2 (by decide)⟩

/-! ## Lemmas: the reset countdown, the tool flags -/

section Countdown

variable (env : Env σ ω) (g : Game σ ω)

@[simp] theorem gotoLevel_countdown (level : Int) (replay : Bool) :
    (gotoLevel env g level replay).m_reset_countdown = g.m_reset_countdown := by
  unfold gotoLevel
  dsimp only
  repeat' split
  all_goals rfl

@[simp] theorem save_countdown (file : Option String) :
    (save env g file).2.m_reset_countdown = g.m_reset_countdown := by
  unfold save
  dsimp only
  repeat' split
  all_goals rfl

@[simp] theorem remove_countdown (w : Option Widget) :
    (remove env g w).m_reset_countdown = g.m_reset_countdown := by
  unfold remove
  dsimp only
  repeat' split
  all_goals rfl

@[simp] theorem togglePause_countdown :
    (togglePause env g).m_reset_countdown = g.m_reset_countdown := by
  unfold togglePause
  dsimp only
  repeat' split
  all_goals first | rfl | simp

@[simp] theorem edit_countdown (doEdit : Bool) :
    (edit env g doEdit).m_reset_countdown = g.m_reset_countdown := by
  unfold edit
  dsimp only
  repeat' split
  all_goals first | rfl | simp

@[simp] theorem saveDemo_countdown :
    (saveDemo env g).m_reset_countdown = g.m_reset_countdown := by
  unfold saveDemo
  dsimp only
  repeat' split
  all_goals rfl

@[simp] theorem reportCompletion_countdown :
    (reportCompletion env g).m_reset_countdown = g.m_reset_countdown := by
  unfold reportCompletion
  dsimp only
  repeat' split
  all_goals first | rfl | simp

@[simp] theorem activateAll_countdown (l : List Stroke) :
    (activateAll env g l).m_reset_countdown = g.m_reset_countdown :=
  (activateAll_frame env g l).2.1

end Countdown

theorem clickMode_flags (g : Game σ ω) (cm : ClickMode) :
    (clickMode g cm).m_strokeFixed = g.m_strokeFixed ∧
    (clickMode g cm).m_strokeSleep = g.m_strokeSleep ∧
    (clickMode g cm).m_strokeDecor = g.m_strokeDecor := by
  unfold clickMode
  split
  · cases cm <;> exact ⟨rfl, rfl, rfl⟩
  · exact ⟨rfl, rfl, rfl⟩

theorem toggleClickMode_flags (g : Game σ ω) (cm : ClickMode) :
    (toggleClickMode g cm).m_strokeFixed = g.m_strokeFixed ∧
    (toggleClickMode g cm).m_strokeSleep = g.m_strokeSleep ∧
    (toggleClickMode g cm).m_strokeDecor = g.m_strokeDecor := by
  unfold toggleClickMode
  split <;> exact clickMode_flags g _

theorem toggleClickMode_atMostOne (g : Game σ ω) (cm : ClickMode) :
    atMostOneTool (toggleClickMode g cm) = atMostOneTool g := by
  obtain ⟨h1, h2, h3⟩ := toggleClickMode_flags g cm
  simp [atMostOneTool, h1, h2, h3]

theorem edit_flags (env : Env σ ω) (g : Game σ ω) (doEdit : Bool) :
    ((edit env g doEdit).m_strokeFixed = g.m_strokeFixed ∧
     (edit env g doEdit).m_strokeSleep = g.m_strokeSleep ∧
     (edit env g doEdit).m_strokeDecor = g.m_strokeDecor) ∨
    ((edit env g doEdit).m_strokeFixed = false ∧
     (edit env g doEdit).m_strokeSleep = false ∧
     (edit env g doEdit).m_strokeDecor = false) := by
  unfold edit
  dsimp only
  split
  · split
    · left
      split <;> exact ⟨rfl, rfl, rfl⟩
    · right
      split <;> exact ⟨rfl, rfl, rfl⟩
  · left
    exact ⟨rfl, rfl, rfl⟩

/-! ## Claims on references, levels, tools and dialogs -/

/-- C21 fails on the code: `toyGrabbed` holds stroke 0 as its move target;
the event `DELETE` at (3, 4) passes stroke 0 to `deleteStroke`, which succeeds
and leaves only stroke 1 in the scene, yet `m_moveStroke` still is stroke 0
and the next `MOVEMORE` passes it to `moveStroke`.  Likewise `toyDrawing`
holds the draft 0; the event `PLAY` with level 0 reloads the scene through
`gotoLevel`, yet `m_createStroke` still is stroke 0 and the next `DRAWMORE`
passes it to `extendStroke`.  The case `UNDO` does clear the draft reference
after its `deleteStroke`. -/
theorem C21_dangling_references :
    toyGrabbed.m_moveStroke = some 0 ∧
    callsOf toyEnv toyGrabbed ⟨Code.DELETE, 3, 4⟩ = some [Call.deleteStroke (some 0)] ∧
    (toyEnv.sceneDeleteStroke toyGrabbed.m_scene (some 0)).1 = true ∧
    (after toyEnv toyGrabbed ⟨Code.DELETE, 3, 4⟩).m_scene.strokes = [1] ∧
    (after toyEnv toyGrabbed ⟨Code.DELETE, 3, 4⟩).m_moveStroke = some 0 ∧
    callsOf toyEnv (after toyEnv toyGrabbed ⟨Code.DELETE, 3, 4⟩) ⟨Code.MOVEMORE, 5, 5⟩ =
      some [Call.moveStroke 0 ⟨2, 1⟩] ∧
    toyDrawing.m_createStroke = some 0 ∧
    callsOf toyEnv toyDrawing ⟨Code.PLAY, 0, 0⟩ = some [Call.load 0, Call.start false] ∧
    (after toyEnv toyDrawing ⟨Code.PLAY, 0, 0⟩).m_createStroke = some 0 ∧
    callsOf toyEnv (after toyEnv toyDrawing ⟨Code.PLAY, 0, 0⟩) ⟨Code.DRAWMORE, 5, 5⟩ =
      some [Call.extendStroke 0 ⟨5, 5⟩] ∧
    callsOf toyEnv toyDrawing ⟨Code.UNDO, 0, 0⟩ = some [Call.deleteStroke (some 0)] ∧
    (after toyEnv toyDrawing ⟨Code.UNDO, 0, 0⟩).m_createStroke = none := by
  refine ⟨?_, ?_, ?_, ?_, ?_, ?_, ?_, ?_, ?_, ?_, ?_, ?_⟩ <;> rfl

/-- C22 fails on the code: on the completed title level 0 with a demo file for
each of the three levels, `NEXT` counts `m_level` up to 3 = `numLevels()` in
its loop and the `gotoLevel(3)` that follows fails without a call, leaving
`m_level = 3`; and `REPLAY` with the level argument 99 sets `m_level = 99`,
where `PLAY` with 99 leaves the level at 1. -/
theorem C22_level_out_of_range :
    validLevel toyEnvAllDemos toyTitleDone = true ∧
    (after toyEnvAllDemos toyTitleDone ⟨Code.NEXT, 0, 0⟩).m_level = 3 ∧
    toyEnvAllDemos.numLevels (after toyEnvAllDemos toyTitleDone ⟨Code.NEXT, 0, 0⟩).world = 3 ∧
    validLevel toyEnvAllDemos (after toyEnvAllDemos toyTitleDone ⟨Code.NEXT, 0, 0⟩) = false ∧
    callsOf toyEnvAllDemos toyTitleDone ⟨Code.NEXT, 0, 0⟩ = some [] ∧
    validLevel toyEnv toyNearlyDone = true ∧
    (after toyEnv toyNearlyDone ⟨Code.REPLAY, 99, 0⟩).m_level = 99 ∧
    validLevel toyEnv (after toyEnv toyNearlyDone ⟨Code.REPLAY, 99, 0⟩) = false ∧
    (after toyEnv toyNearlyDone ⟨Code.PLAY, 99, 0⟩).m_level = 1 ∧
    validLevel toyEnv (after toyEnv toyNearlyDone ⟨Code.PLAY, 99, 0⟩) = true := by
  refine ⟨?_, ?_, ?_, ?_, ?_, ?_, ?_, ?_, ?_, ?_⟩ <;> rfl

/-- C23: with at most one of `m_strokeFixed`, `m_strokeSleep` and
`m_strokeDecor` set, every click handler of `toolOpts` and `Game::edit` leave
at most one of them set; the handlers of ground, sleepy and decor (the first
three) toggle their own flag and leave the two others false; and, the four
attributes being distinct bits, the mask `drawAttrib` built at `DRAWBEGIN`
has at most one of the bits GROUND, SLEEPING and DECOR. -/
theorem C23_one_tool_flag (env : Env σ ω) (g : Game σ ω) (a b c d : Nat)
    (hG : env.ATTRIB_GROUND = 2 ^ a) (hS : env.ATTRIB_SLEEPING = 2 ^ b)
    (hD : env.ATTRIB_DECOR = 2 ^ c) (hI : env.ATTRIB_INTERACTIVE = 2 ^ d)
    (hab : a ≠ b) (hac : a ≠ c) (had : a ≠ d) (hbc : b ≠ c) (hbd : b ≠ d) (hcd : c ≠ d)
    (h : atMostOneTool g = true) :
    (∀ o ∈ toolOpts σ ω, atMostOneTool (o.clicked g).2 = true) ∧
    (∀ doEdit, atMostOneTool (edit env g doEdit) = true) ∧
    (∀ o, (toolOpts σ ω)[0]? = some o →
      (o.clicked g).2.m_strokeFixed = !g.m_strokeFixed ∧
      (o.clicked g).2.m_strokeSleep = false ∧ (o.clicked g).2.m_strokeDecor = false) ∧
    (∀ o, (toolOpts σ ω)[1]? = some o →
      (o.clicked g).2.m_strokeSleep = !g.m_strokeSleep ∧
      (o.clicked g).2.m_strokeFixed = false ∧ (o.clicked g).2.m_strokeDecor = false) ∧
    (∀ o, (toolOpts σ ω)[2]? = some o →
      (o.clicked g).2.m_strokeDecor = !g.m_strokeDecor ∧
      (o.clicked g).2.m_strokeFixed = false ∧ (o.clicked g).2.m_strokeSleep = false) ∧
    (!((drawAttrib env g).testBit a && (drawAttrib env g).testBit b) &&
     !((drawAttrib env g).testBit a && (drawAttrib env g).testBit c) &&
     !((drawAttrib env g).testBit b && (drawAttrib env g).testBit c)) = true := by
  refine ⟨?_, ?_, ?_, ?_, ?_, ?_⟩
  · intro o ho
    simp only [toolOpts, List.mem_cons, List.mem_singleton, List.not_mem_nil, or_false] at ho
    rcases ho with rfl | rfl | rfl | rfl | rfl | rfl | rfl | rfl
    · simp [atMostOneTool]
    · simp [atMostOneTool]
    · simp [atMostOneTool]
    · simpa [toggleClickMode_atMostOne] using h
    · simpa [toggleClickMode_atMostOne] using h
    · simpa [toggleClickMode_atMostOne] using h
    · simpa [atMostOneTool] using h
    · simpa [atMostOneTool] using h
  · intro doEdit
    rcases edit_flags env g doEdit with ⟨h1, h2, h3⟩ | ⟨h1, h2, h3⟩
    · simpa [atMostOneTool, h1, h2, h3] using h
    · simp [atMostOneTool, h1, h2, h3]
  · intro o ho
    simp only [toolOpts, List.getElem?_cons_zero, Option.some.injEq] at ho
    subst ho
    exact ⟨rfl, rfl, rfl⟩
  · intro o ho
    simp only [toolOpts, List.getElem?_cons_succ, List.getElem?_cons_zero, Option.some.injEq] at ho
    subst ho
    exact ⟨rfl, rfl, rfl⟩
  · intro o ho
    simp only [toolOpts, List.getElem?_cons_succ, List.getElem?_cons_zero, Option.some.injEq] at ho
    subst ho
    exact ⟨rfl, rfl, rfl⟩
  · have hb := drawAttrib_bits env g a b c d hG hS hD hI
    simp only [atMostOneTool] at h
    rw [hb a, hb b, hb c]
    revert h
    cases g.m_strokeFixed <;> cases g.m_strokeSleep <;> cases g.m_strokeDecor <;>
      cases g.m_interactiveDraw <;>
      simp [hab, hac, had, hbc, hbd, hcd, hab.symm, hac.symm, had.symm, hbc.symm, hbd.symm,
        hcd.symm]

/-- C23 at the game `toyDrawing` of `toyEnv`, whose attributes are the bits
0, 4, 3 and 7: `Game::edit` keeps at most one tool flag set. -/
theorem C23_one_tool_flag_witness :
    atMostOneTool toyDrawing = true ∧ atMostOneTool (edit toyEnv toyDrawing true) = true :=
  ⟨rfl, (C23_one_tool_flag toyEnv toyDrawing 0 4 3 7 rfl rfl rfl rfl (by decide) (by decide)
    (by decide) (by decide) (by decide) (by decide) rfl).2.1 true⟩

/-- C24 fails on the code: for 125 s the constructor prints "time: 0m 5s"
where the specification has "time: 2m 5s" (the minutes printed are
`time/60/1000`), and for 7384 s it prints "time: 3h 2m 7204s" where the
specification has "time: 2h 3m 4s" (minutes and hours are passed in swapped
order and the seconds are `time - m*60` with `m` short of the hours); below
one minute the two agree. -/
theorem C24_time_label :
    timeLabel (statsFor 125000) = "time: 0m 5s" ∧
    timeLabelSpec 125 = "time: 2m 5s" ∧
    timeLabel (statsFor 7384000) = "time: 3h 2m 7204s" ∧
    timeLabelSpec 7384 = "time: 2h 3m 4s" ∧
    timeLabel (statsFor 59000) = "time: 59s" ∧
    timeLabelSpec 59 = "time: 59s" := by
  refine ⟨?_, ?_, ?_, ?_, ?_, ?_⟩ <;> rfl

/-- C26 fails on the code: for the accepted collection 1 of 33 levels the
first loop of `setCollection` accesses `m_thumbs[32]`, one past the array of
`THUMB_COUNT` = 32.  For the collection of 3 levels every index is in range,
and the collection indices 2 and -1, outside `[0, numCollections)`, leave the
selector as it was. -/
theorem C26_thumbs_overflow :
    (toySelector.setCollection toySelectorEnv 1).m_dispcount = 33 ∧
    THUMB_COUNT ∈ (toySelector.setCollection toySelectorEnv 1).thumbAccess ∧
    (∀ i ∈ (toySelector.setCollection toySelectorEnv 0).thumbAccess, 0 ≤ i ∧ i < THUMB_COUNT) ∧
    toySelector.setCollection toySelectorEnv 2 = toySelector ∧
    toySelector.setCollection toySelectorEnv (-1) = toySelector := by
  refine ⟨?_, ?_, ?_, ?_, ?_⟩ <;> decide

/-- C27 fails on the code: the cleared rect is ordered and contains (0, 0),
and expanded by the rect from (10, 10) to (20, 20) it no longer does; and the
rect from (10, 10) to (20, 20) expanded by the ordered rect from (0, 3) to
(0, 7), for which `isEmpty()` holds, does not contain it. -/
theorem C27_counterexample :
    Rect.ordered ⟨⟨10, 10⟩, ⟨20, 20⟩⟩ = true ∧
    Rect.clear.ordered = true ∧
    Rect.clear.contains ⟨0, 0⟩ = true ∧
    (Rect.clear.expandRect ⟨⟨10, 10⟩, ⟨20, 20⟩⟩).contains ⟨0, 0⟩ = false ∧
    Rect.ordered ⟨⟨0, 3⟩, ⟨0, 7⟩⟩ = true ∧
    (Rect.expandRect ⟨⟨10, 10⟩, ⟨20, 20⟩⟩ ⟨⟨0, 3⟩, ⟨0, 7⟩⟩).containsRect ⟨⟨0, 3⟩, ⟨0, 7⟩⟩ = false := by
  decide

/-- C27, amended: for every rect `a` and every ordered rect `b`, if
`a.isEmpty()` (as for the cleared rect) `a.expand(b)` yields exactly `b`;
if `a.isEmpty()` or not `b.isEmpty()` the result contains `b`; if not
`a.isEmpty()` the result contains every point `a` contained, and is `a`
itself when `b.isEmpty()`. -/
theorem C27_expand_rect (a b : Rect) (hb : b.ordered = true) :
    (a.isEmpty = true → a.expandRect b = b) ∧
    Rect.clear.expandRect b = b ∧
    (a.isEmpty = true ∨ b.isEmpty = false → (a.expandRect b).containsRect b = true) ∧
    (a.isEmpty = false → ∀ p, a.contains p = true → (a.expandRect b).contains p = true) ∧
    (a.isEmpty = false → b.isEmpty = true → a.expandRect b = a) := by
  refine ⟨?_, ?_, ?_, ?_, ?_⟩
  · intro h
    simp [Rect.expandRect, h]
  · simp [Rect.expandRect, Rect.clear, Rect.isEmpty]
  · intro h
    by_cases ha : a.isEmpty = true
    · simp only [Rect.expandRect, ha, if_true]
      simp only [Rect.ordered, Bool.and_eq_true, decide_eq_true_eq] at hb
      simp only [Rect.containsRect, Rect.contains, Bool.and_eq_true, decide_eq_true_eq]
      omega
    · have hbe : b.isEmpty = false := by
        rcases h with h | h
        · exact absurd h ha
        · exact h
      simp only [Rect.expandRect, ha, hbe, Bool.not_false, if_true, Bool.false_eq_true, if_false]
      simp only [Rect.containsRect, Bool.and_eq_true]
      exact ⟨expand_keeps _ _ _ (expand_has _ _), expand_has _ _⟩
  · intro ha p hp
    simp only [Rect.expandRect, ha, Bool.false_eq_true, if_false]
    split
    · exact expand_keeps _ _ _ (expand_keeps _ _ _ hp)
    · exact hp
  · intro ha hbe
    simp [Rect.expandRect, ha, hbe]

/-- C27 at the rects from (1, 1) to (2, 2) and from (10, 10) to (20, 20): the
expanded rect contains the second. -/
theorem C27_expand_rect_witness :
    (Rect.expandRect ⟨⟨1, 1⟩, ⟨2, 2⟩⟩ ⟨⟨10, 10⟩, ⟨20, 20⟩⟩).containsRect ⟨⟨10, 10⟩, ⟨20, 20⟩⟩ = true :=
  (C27_expand_rect ⟨⟨1, 1⟩, ⟨2, 2⟩⟩ ⟨⟨10, 10⟩, ⟨20, 20⟩⟩ (by decide)).2.2.1 (Or.inr (by decide))

end Numpty
